import Mathlib

/-! # nRF PWM driver (`drivers/pwm/pwm_nrfx.c`): shallow embedding

The driver data is passed explicitly; every call of a hardware routine
(`nrf_pwm_configure`, `nrf_gpio_pin_write`, `nrfx_pwm_stop`,
`nrfx_pwm_is_stopped`, `nrfx_pwm_simple_playback`, ...) is recorded, in
program order, in a list of `HwAction`.  What the hardware answers
(pin-select registers, GPIO output latches, the stopped flag, return codes) is
read from a record `nrf_hw`.

Machine integers are natural numbers; a cast to `uint16_t` is `% 65536`.
The busy wait `while (!nrfx_pwm_is_stopped(..)) {}` is run with a bound on the
number of polls; `none` means that the bound was reached while the hardware
still reported "not stopped".
-/

namespace PwmNrfx

/-! ## Constants of headers that are not part of the driver file -/

/-- Modelled from the spec: `NRF_PWM_CHANNEL_COUNT` of the nrfx HAL, the number
of channels of one PWM peripheral ("fixed, small count, e.g. 4"). -/
abbrev NRF_PWM_CHANNEL_COUNT : Nat := 4

/-- Modelled from the spec: `PWM_COUNTERTOP_COUNTERTOP_Msk` of the nRF MDK,
the 15-bit countertop register mask. -/
abbrev PWM_COUNTERTOP_COUNTERTOP_Msk : Nat := 0x7FFF

/-- Modelled from the spec: `PWM_PRESCALER_PRESCALER_Msk` of the nRF MDK, the
largest prescaler selector of the hardware. -/
abbrev PWM_PRESCALER_PRESCALER_Msk : Nat := 7

/-- Modelled from the spec: `PWM_PSEL_OUT_CONNECT_Msk` of the nRF MDK (bit 31 of
a pin-select register). -/
abbrev PWM_PSEL_OUT_CONNECT_Msk : Nat := 0x80000000

/-- Modelled from the spec: `PWM_PSEL_OUT_CONNECT_Pos` of the nRF MDK. -/
abbrev PWM_PSEL_OUT_CONNECT_Pos : Nat := 31

/-- Modelled from the spec: `PWM_PSEL_OUT_CONNECT_Connected` of the nRF MDK
(the connect bit is active low). -/
abbrev PWM_PSEL_OUT_CONNECT_Connected : Nat := 0

/-- Modelled from the spec: `PWM_POLARITY_INVERTED` of the Zephyr PWM
devicetree bindings, the polarity bit of `pwm_flags_t`. -/
abbrev PWM_POLARITY_INVERTED : Nat := 1

/-- Modelled from the spec: `EINVAL` of errno.h. -/
abbrev EINVAL : Int := 22

/-- Modelled from the spec: `EBUSY` of errno.h. -/
abbrev EBUSY : Int := 16

/-- Modelled from the spec: the Zephyr macro `BIT(n)`. -/
abbrev BIT (n : Nat) : Nat := 1 <<< n

/-- Modelled from the spec: the Zephyr macro `BIT_MASK(n)`. -/
abbrev BIT_MASK (n : Nat) : Nat := BIT n - 1

/-- Modelled from the spec: `nrf_pwm_mode_t` of the nrfx HAL. -/
inductive nrf_pwm_mode_t where
  | NRF_PWM_MODE_UP
  | NRF_PWM_MODE_UP_AND_DOWN
  deriving DecidableEq, Repr

open nrf_pwm_mode_t

/-! ## Macros of the driver (source lines 18-21) -/

/-- `PWM_NRFX_CH_POLARITY_MASK`, source line 18. -/
abbrev PWM_NRFX_CH_POLARITY_MASK : Nat := BIT 15

/-- `PWM_NRFX_CH_COMPARE_MASK`, source line 19. -/
abbrev PWM_NRFX_CH_COMPARE_MASK : Nat := BIT_MASK 15

/-- `PWM_NRFX_CH_VALUE(compare_value, inverted)`, source lines 20-21:
`(compare_value | (inverted ? 0 : PWM_NRFX_CH_COMPARE_MASK))`. -/
def PWM_NRFX_CH_VALUE (compare_value : Nat) (inverted : Bool) : Nat :=
  compare_value ||| (if inverted then 0 else PWM_NRFX_CH_COMPARE_MASK)

/-! ## Data model -/

/-- The part of `struct pwm_nrfx_config` the driver logic reads: the count mode
of `initial_config`, and whether the file is built with `CONFIG_PINCTRL`. -/
structure pwm_nrfx_config where
  count_mode : nrf_pwm_mode_t
  CONFIG_PINCTRL : Bool
  deriving DecidableEq, Repr

/-- `struct pwm_nrfx_data`, source lines 32-38. -/
structure pwm_nrfx_data where
  period_cycles : Nat
  seq_values : Fin NRF_PWM_CHANNEL_COUNT → Nat
  prescaler : Nat
  initially_inverted : Nat
  stop_requested : Bool

/-- What the hardware and the platform answer when the driver asks. -/
structure nrf_hw where
  /-- `nrf_pwm_pin_get`: the pin-select register of each channel. -/
  psel_out : Fin NRF_PWM_CHANNEL_COUNT → Nat
  /-- `nrf_gpio_pin_out_read`: the output latch of a pin. -/
  gpio_out : Nat → Nat
  /-- `nrfx_pwm_is_stopped`: the answer to the k-th poll of one busy wait. -/
  is_stopped : Nat → Bool
  /-- `pinctrl_apply_state`: its return code. -/
  pinctrl_ret : Int
  /-- `nrfx_pwm_init`: whether it returns `NRFX_SUCCESS`. -/
  nrfx_pwm_init_ok : Bool

/-- Calls of hardware routines, as the driver emits them. -/
inductive HwAction where
  | nrf_pwm_configure (prescaler : Nat) (mode : nrf_pwm_mode_t) (top_value : Nat)
  | nrf_gpio_pin_write (pin : Nat) (value : Nat)
  | nrfx_pwm_stop (wait_until_stopped : Bool)
  | nrfx_pwm_is_stopped (answer : Bool)
  | nrfx_pwm_simple_playback (playback_count : Nat) (flags : Nat)
  | pinctrl_apply_state
  | nrfx_pwm_init
  | nrfx_pwm_uninit
  deriving DecidableEq, Repr

open HwAction

/-! ## Classifier (source lines 41-63) -/

/-- `channel_needs_pwm`, source lines 41-49. -/
def channel_needs_pwm (channel : Fin NRF_PWM_CHANNEL_COUNT)
    (data : pwm_nrfx_data) : Bool :=
  let compare_value := data.seq_values channel &&& PWM_NRFX_CH_COMPARE_MASK
  compare_value != 0 && compare_value != PWM_NRFX_CH_COMPARE_MASK

/-- `any_other_channel_needs_pwm`, source lines 51-63.  The argument `channel`
is only compared with the loop index. -/
def any_other_channel_needs_pwm (channel : Nat) (data : pwm_nrfx_data) : Bool :=
  (List.finRange NRF_PWM_CHANNEL_COUNT).any
    (fun i => decide (i.val ≠ channel) && channel_needs_pwm i data)

/-! ## Timing-base resolver (source lines 65-112) -/

/-- The `do ... while (prescaler <= PWM_PRESCALER_PRESCALER_Msk)` loop of
`pwm_period_check_and_set`, source lines 94-108, entered with the current
`prescaler` and `countertop`.  `n` bounds the number of passes; the caller
gives one pass per prescaler value. -/
def pwm_period_search (config : pwm_nrfx_config) (data : pwm_nrfx_data)
    (period_cycles : Nat) :
    Nat → Nat → Nat → Bool × pwm_nrfx_data × List HwAction
  | 0, _, _ => (false, data, [])
  | n + 1, prescaler, countertop =>
    if countertop ≤ PWM_COUNTERTOP_COUNTERTOP_Msk then
      let data1 := { data with period_cycles := period_cycles, prescaler := prescaler }
      (true, data1,
        [nrf_pwm_configure data1.prescaler config.count_mode (countertop % 65536)])
    else
      let countertop1 := countertop >>> 1
      let prescaler1 := (prescaler + 1) % 256
      if prescaler1 ≤ PWM_PRESCALER_PRESCALER_Msk then
        pwm_period_search config data period_cycles n prescaler1 countertop1
      else
        (false, data, [])

/-- `pwm_period_check_and_set`, source lines 65-112: the result, the driver
data afterwards and the hardware calls made. -/
def pwm_period_check_and_set (config : pwm_nrfx_config) (data : pwm_nrfx_data)
    (channel period_cycles : Nat) : Bool × pwm_nrfx_data × List HwAction :=
  if period_cycles = data.period_cycles then
    (true, data, [])
  else if any_other_channel_needs_pwm channel data then
    (false, data, [])
  else
    pwm_period_search config data period_cycles
      (PWM_PRESCALER_PRESCALER_Msk + 1) 0 period_cycles

/-! ## Channel update (source lines 114-231) -/

/-- `channel_psel_get`, source lines 114-121: the pin-select value and whether
the pin is connected. -/
def channel_psel_get (hw : nrf_hw) (channel : Fin NRF_PWM_CHANNEL_COUNT) :
    Bool × Nat :=
  let psel := hw.psel_out channel
  (((psel &&& PWM_PSEL_OUT_CONNECT_Msk) >>> PWM_PSEL_OUT_CONNECT_Pos)
      == PWM_PSEL_OUT_CONNECT_Connected, psel)

/-- The busy wait `while (!nrfx_pwm_is_stopped(&config->pwm)) {}`, source
lines 218-219, from poll number `k` on, with at most `fuel` further polls after
this one.  Each poll is recorded with its answer. -/
def wait_stopped (hw : nrf_hw) : Nat → Nat → Option (List HwAction)
  | fuel, k =>
    if hw.is_stopped k then
      some [nrfx_pwm_is_stopped true]
    else
      match fuel with
      | 0 => none
      | fuel1 + 1 =>
        (wait_stopped hw fuel1 (k + 1)).map (fun t => nrfx_pwm_is_stopped false :: t)

/-- What a call of `pwm_nrfx_set_cycles` leaves behind: its return value, the
driver data and the hardware calls it made. -/
structure set_cycles_result where
  ret : Int
  data : pwm_nrfx_data
  trace : List HwAction

/-- Source lines 183-195 of `pwm_nrfx_set_cycles`: the GPIO level of a channel
that is not driven by the peripheral. -/
def set_cycles_gpio (hw : nrf_hw) (channel : Fin NRF_PWM_CHANNEL_COUNT)
    (pulse_cycles : Nat) (inverted needs_pwm : Bool) : List HwAction :=
  if !needs_pwm then
    let (connected, psel) := channel_psel_get hw channel
    if connected then
      let out_level : Nat := if pulse_cycles = 0 then 0 else 1
      let out_level1 := if inverted then out_level ^^^ 1 else out_level
      [nrf_gpio_pin_write psel out_level1]
    else []
  else []

/-- Source lines 203-228 of `pwm_nrfx_set_cycles`: stop the peripheral or
request a playback.  `none` when the busy wait used up its bound. -/
def set_cycles_playback (fuel : Nat) (hw : nrf_hw) (data : pwm_nrfx_data)
    (channel : Nat) (needs_pwm : Bool) : Option (pwm_nrfx_data × List HwAction) :=
  if !needs_pwm && !any_other_channel_needs_pwm channel data then
    some ({ data with stop_requested := true }, [nrfx_pwm_stop false])
  else if data.stop_requested then
    match wait_stopped hw fuel 0 with
    | none => none
    | some polls =>
      some ({ data with stop_requested := false },
        polls ++ [nrfx_pwm_simple_playback 1 0])
  else
    some (data, [nrfx_pwm_simple_playback 1 0])

/-- Source lines 172-230 of `pwm_nrfx_set_cycles`: store the channel word, set
the GPIO level, stop or play back, return 0.  `trace0` holds the hardware calls
made so far. -/
def set_cycles_commit (fuel : Nat) (hw : nrf_hw) (data : pwm_nrfx_data)
    (channel : Fin NRF_PWM_CHANNEL_COUNT) (pulse_cycles : Nat) (inverted : Bool)
    (compare_value : Nat) (needs_pwm : Bool) (trace0 : List HwAction) :
    Option set_cycles_result :=
  let data1 := { data with
    seq_values := Function.update data.seq_values channel
      (PWM_NRFX_CH_VALUE compare_value inverted % 65536) }
  let trace1 := set_cycles_gpio hw channel pulse_cycles inverted needs_pwm
  match set_cycles_playback fuel hw data1 channel.val needs_pwm with
  | none => none
  | some (data2, trace2) => some ⟨0, data2, trace0 ++ trace1 ++ trace2⟩

/-- Source lines 147-150 of `pwm_nrfx_set_cycles`: in center-aligned mode a
cycle count is halved, otherwise it is used as given. -/
def center_aligned_adjust (config : pwm_nrfx_config) (cycles : Nat) : Nat :=
  if config.count_mode = NRF_PWM_MODE_UP_AND_DOWN then cycles / 2 else cycles

/-- Source lines 152-170 of `pwm_nrfx_set_cycles`: the compare value, the flag
`needs_pwm`, the driver data and the hardware calls after the duty has been
classified; `none` is the `return -EINVAL` of line 165. -/
def set_cycles_classify (config : pwm_nrfx_config) (data : pwm_nrfx_data)
    (channel period_cycles pulse_cycles : Nat) :
    Option (Nat × Bool × pwm_nrfx_data × List HwAction) :=
  if pulse_cycles = 0 then
    some (0, false, data, [])
  else if pulse_cycles ≥ period_cycles then
    some (PWM_NRFX_CH_COMPARE_MASK, false, data, [])
  else
    match pwm_period_check_and_set config data channel period_cycles with
    | (false, _, _) => none
    | (true, data1, trace1) =>
      some ((pulse_cycles >>> data1.prescaler) % 65536, true, data1, trace1)

/-- `pwm_nrfx_set_cycles`, source lines 123-231.  `fuel` bounds the busy wait
of lines 218-219; `none` when that bound is used up. -/
def pwm_nrfx_set_cycles (fuel : Nat) (hw : nrf_hw) (config : pwm_nrfx_config)
    (data : pwm_nrfx_data) (channel period_cycles pulse_cycles flags : Nat) :
    Option set_cycles_result :=
  let inverted : Bool := (flags &&& PWM_POLARITY_INVERTED) != 0
  if h : channel ≥ NRF_PWM_CHANNEL_COUNT then
    some ⟨-EINVAL, data, []⟩
  else
    let ch : Fin NRF_PWM_CHANNEL_COUNT := ⟨channel, Nat.lt_of_not_ge h⟩
    let period_cycles1 := center_aligned_adjust config period_cycles
    let pulse_cycles1 := center_aligned_adjust config pulse_cycles
    match set_cycles_classify config data channel period_cycles1 pulse_cycles1 with
    | none => some ⟨-EINVAL, data, []⟩
    | some (compare_value, needs_pwm, data1, trace1) =>
      set_cycles_commit fuel hw data1 ch pulse_cycles1 inverted compare_value
        needs_pwm trace1

/-! ## Lifecycle (source lines 250-303) -/

/-- The loop of source lines 263-274: the inversion mask sampled from the
output latches of the connected pins. -/
def init_sample_inverted (hw : nrf_hw) : Nat :=
  (List.finRange NRF_PWM_CHANNEL_COUNT).foldl
    (fun acc i =>
      let (connected, psel) := channel_psel_get hw i
      if connected then
        (acc ||| (if hw.gpio_out psel ≠ 0 then BIT i.val else 0)) % 256
      else acc)
    0

/-- The loop of source lines 277-281: every channel word is seeded with
`PWM_NRFX_CH_VALUE(0, inverted)`. -/
def init_seq_values (initially_inverted : Nat) : Fin NRF_PWM_CHANNEL_COUNT → Nat :=
  fun i =>
    let inverted : Bool := (initially_inverted &&& BIT i.val) != 0
    PWM_NRFX_CH_VALUE 0 inverted % 65536

/-- `pwm_nrfx_init`, source lines 250-293: return value, driver data and
hardware calls. -/
def pwm_nrfx_init (hw : nrf_hw) (config : pwm_nrfx_config) (data : pwm_nrfx_data) :
    Int × pwm_nrfx_data × List HwAction :=
  if config.CONFIG_PINCTRL && decide (hw.pinctrl_ret < 0) then
    (hw.pinctrl_ret, data, [pinctrl_apply_state])
  else
    let trace0 := if config.CONFIG_PINCTRL then [pinctrl_apply_state] else []
    let data1 :=
      if config.CONFIG_PINCTRL then
        { data with initially_inverted := init_sample_inverted hw }
      else data
    let data2 := { data1 with seq_values := init_seq_values data1.initially_inverted }
    if hw.nrfx_pwm_init_ok then
      (0, data2, trace0 ++ [nrfx_pwm_init])
    else
      (-EBUSY, data2, trace0 ++ [nrfx_pwm_init])

/-- The driver data of a device before its first initialisation, and after
`memset(dev->data, 0, sizeof(struct pwm_nrfx_data))`. -/
def pwm_nrfx_data_zero : pwm_nrfx_data :=
  { period_cycles := 0, seq_values := fun _ => 0, prescaler := 0,
    initially_inverted := 0, stop_requested := false }

/-- `pwm_nrfx_uninit`, source lines 296-303. -/
def pwm_nrfx_uninit (_data : pwm_nrfx_data) : pwm_nrfx_data × List HwAction :=
  (pwm_nrfx_data_zero, [nrfx_pwm_uninit])

/-! ## Sequences of driver calls -/

/-- One call of a driver entry point on the driver data `d`: the data it
leaves and the hardware calls it makes.  A call of `pwm_nrfx_set_cycles` whose
busy wait never ends leaves no state behind. -/
inductive driver_step (config : pwm_nrfx_config) :
    pwm_nrfx_data → pwm_nrfx_data → List HwAction → Prop where
  | init (hw : nrf_hw) (d : pwm_nrfx_data) :
      driver_step config d (pwm_nrfx_init hw config d).2.1 (pwm_nrfx_init hw config d).2.2
  | set_cycles (fuel : Nat) (hw : nrf_hw) (d : pwm_nrfx_data)
      (channel period_cycles pulse_cycles flags : Nat) (o : set_cycles_result) :
      pwm_nrfx_set_cycles fuel hw config d channel period_cycles pulse_cycles flags = some o →
      driver_step config d o.data o.trace
  | uninit (d : pwm_nrfx_data) :
      driver_step config d (pwm_nrfx_uninit d).1 (pwm_nrfx_uninit d).2

/-- The driver data reachable from the static data of a device by any sequence
of `pwm_nrfx_init`, `pwm_nrfx_set_cycles` and `pwm_nrfx_uninit` calls.  The
static data is all zero, except that a build without pinctrl presets
`initially_inverted` (source lines 363-370). -/
inductive reachable (config : pwm_nrfx_config) : pwm_nrfx_data → Prop where
  | start (initially_inverted : Nat) :
      reachable config { pwm_nrfx_data_zero with initially_inverted := initially_inverted }
  | step (d d1 : pwm_nrfx_data) (t : List HwAction) :
      reachable config d → driver_step config d d1 t → reachable config d1

/-- The driver data with the word of one channel replaced (the store of source
line 172). -/
def seq_store (data : pwm_nrfx_data) (channel : Fin NRF_PWM_CHANNEL_COUNT)
    (word : Nat) : pwm_nrfx_data :=
  { data with seq_values := Function.update data.seq_values channel word }

/-- A hardware call with the count mode of a timer programming replaced by
`mode`; every other call is left as it is. -/
def retag_mode (mode : nrf_pwm_mode_t) : HwAction → HwAction
  | nrf_pwm_configure prescaler _ top_value => nrf_pwm_configure prescaler mode top_value
  | a => a

/-- The result of a channel update with the count mode of every timer
programming replaced by `mode`. -/
def retag_result (mode : nrf_pwm_mode_t) (o : set_cycles_result) : set_cycles_result :=
  ⟨o.ret, o.data, o.trace.map (retag_mode mode)⟩

/-! ## Concrete devices used in scenarios -/

/-- A board whose four channels are connected to pins 13..16, all output
latches low, a peripheral that reports "stopped" at the first poll. -/
def hw_idle_low : nrf_hw :=
  { psel_out := fun i => 13 + i.val, gpio_out := fun _ => 0,
    is_stopped := fun _ => true, pinctrl_ret := 0, nrfx_pwm_init_ok := true }

/-- An edge-aligned (up-counting) device built with pinctrl. -/
def config_up : pwm_nrfx_config :=
  { count_mode := NRF_PWM_MODE_UP, CONFIG_PINCTRL := true }

/-- The driver data `pwm_nrfx_init` leaves on `hw_idle_low`: every channel
non-inverted, `period_cycles = 0`, `prescaler = 0`, `stop_requested = false`. -/
def data_after_init : pwm_nrfx_data :=
  (pwm_nrfx_init hw_idle_low config_up pwm_nrfx_data_zero).2.1

/-- The driver data after the inverted request "channel 0, period 1000, pulse
500" on the state left by init: channel 0 holds the word 500, whose compare
field is neither 0 nor 0x7FFF, under the timing base of period 1000. -/
def data_ch0_driven : pwm_nrfx_data :=
  match pwm_nrfx_set_cycles 0 hw_idle_low config_up data_after_init 0 1000 500 1 with
  | some o => o.data
  | none => data_after_init

/-- The driver data after the first genuine PWM request of the scenarios:
channel 0, period 1000, pulse 500, not inverted, on the state left by init. -/
def data_first_pwm : pwm_nrfx_data :=
  match pwm_nrfx_set_cycles 0 hw_idle_low config_up data_after_init 0 1000 500 0 with
  | some o => o.data
  | none => data_after_init

/-- What the first genuine PWM request of the scenarios (channel 0, period
1000, pulse 500, not inverted) leaves behind on the state left by init. -/
def result_first_pwm : set_cycles_result :=
  match pwm_nrfx_set_cycles 0 hw_idle_low config_up data_after_init 0 1000 500 0 with
  | some o => o
  | none => ⟨0, data_after_init, []⟩

/-- What the call "pulse 0 on channel 0" (period 1000, not inverted) leaves
behind when it follows the first genuine PWM request of the scenarios. -/
def result_pulse_zero : set_cycles_result :=
  match pwm_nrfx_set_cycles 0 hw_idle_low config_up data_first_pwm 0 1000 0 0 with
  | some o => o
  | none => ⟨0, data_first_pwm, []⟩

/-- A peripheral that reports "not stopped" at the first two polls of a busy
wait and "stopped" at the third, on the board of `hw_idle_low`. -/
def hw_slow_stop : nrf_hw :=
  { hw_idle_low with is_stopped := fun k => decide (2 ≤ k) }

/-- A center-aligned (up-and-down counting) device built with pinctrl. -/
def config_up_down : pwm_nrfx_config :=
  { count_mode := NRF_PWM_MODE_UP_AND_DOWN, CONFIG_PINCTRL := true }

/-- What the inverted request "channel 0, period 1000, pulse 500" leaves behind
when it arrives while the stop requested by `result_pulse_zero` is pending and
the peripheral is slow to stop. -/
def result_restart : set_cycles_result :=
  match pwm_nrfx_set_cycles 5 hw_slow_stop config_up result_pulse_zero.data 0 1000 500 1 with
  | some o => o
  | none => ⟨0, result_pulse_zero.data, []⟩

/-- What the inverted request "channel 0, period 1000, pulse 500" leaves behind
on the state left by init. -/
def result_inverted_pwm : set_cycles_result :=
  match pwm_nrfx_set_cycles 0 hw_idle_low config_up data_after_init 0 1000 500 1 with
  | some o => o
  | none => ⟨0, data_after_init, []⟩

/-! ## Observations on a list of hardware calls -/

/-- Whether a hardware call is `nrfx_pwm_stop`. -/
def is_stop : HwAction → Bool
  | nrfx_pwm_stop _ => true
  | _ => false

/-- Whether a hardware call is `nrfx_pwm_simple_playback`. -/
def is_playback : HwAction → Bool
  | nrfx_pwm_simple_playback _ _ => true
  | _ => false

/-- Whether a hardware call is `nrf_pwm_configure`. -/
def is_configure : HwAction → Bool
  | nrf_pwm_configure _ _ _ => true
  | _ => false

/-- Whether a hardware call is `nrf_gpio_pin_write`. -/
def is_gpio_write : HwAction → Bool
  | nrf_gpio_pin_write _ _ => true
  | _ => false

/-- Whether a hardware call is a poll of `nrfx_pwm_is_stopped`. -/
def is_poll : HwAction → Bool
  | nrfx_pwm_is_stopped _ => true
  | _ => false

/-! ## Bit-level facts -/

theorem compare_mask_eq : PWM_NRFX_CH_COMPARE_MASK = 2 ^ 15 - 1 := by decide

theorem polarity_mask_eq : PWM_NRFX_CH_POLARITY_MASK = 2 ^ 15 := by decide

/-- The compare field of a word is the word modulo `2 ^ 15`. -/
theorem and_compare_mask (w : Nat) : w &&& PWM_NRFX_CH_COMPARE_MASK = w % 2 ^ 15 := by
  rw [compare_mask_eq, Nat.and_pow_two_sub_one_eq_mod]

/-- Or-ing the compare mask onto a 15-bit value gives the compare mask. -/
theorem or_compare_mask_of_lt (d : Nat) (h : d < 2 ^ 15) :
    d ||| PWM_NRFX_CH_COMPARE_MASK = PWM_NRFX_CH_COMPARE_MASK := by
  rw [compare_mask_eq]
  apply Nat.eq_of_testBit_eq
  intro i
  rw [Nat.testBit_or, Nat.testBit_two_pow_sub_one]
  by_cases hi : i < 15
  · simp [hi]
  · have hd : d.testBit i = false := by
      apply Nat.testBit_lt_two_pow
      exact lt_of_lt_of_le h (Nat.pow_le_pow_right (by decide) (by omega))
    simp [hi, hd]

/-- Flipping bit 15 does not touch the compare field. -/
theorem xor_polarity_and_compare (w : Nat) :
    (w ^^^ PWM_NRFX_CH_POLARITY_MASK) &&& PWM_NRFX_CH_COMPARE_MASK
      = w &&& PWM_NRFX_CH_COMPARE_MASK := by
  rw [compare_mask_eq, polarity_mask_eq]
  apply Nat.eq_of_testBit_eq
  intro i
  simp only [Nat.testBit_and, Nat.testBit_xor, Nat.testBit_two_pow_sub_one,
    Nat.testBit_two_pow]
  by_cases hi : i < 15
  · have : ¬ (15 = i) := by omega
    simp [hi, this]
  · simp [hi]

/-! ## Codec -/

/-- Every non-inverted encoding of a 15-bit compare value is the word
`0x7FFF`. -/
theorem ch_value_not_inverted (d : Nat) (h : d ≤ 0x7FFF) :
    PWM_NRFX_CH_VALUE d false = 0x7FFF := by
  have h1 : d < 2 ^ 15 := by
    have : (2:Nat) ^ 15 = 32768 := by norm_num
    omega
  have h2 := or_compare_mask_of_lt d h1
  simpa [PWM_NRFX_CH_VALUE] using h2

/-- An inverted encoding is the compare value itself. -/
theorem ch_value_inverted (d : Nat) : PWM_NRFX_CH_VALUE d true = d := by
  simp [PWM_NRFX_CH_VALUE]

/-- C1 (evaluation of the code where the claim fails): the non-inverted
encoding of the compare value 500 is the word `0x7FFF`; its compare field is
`0x7FFF`, not 500, its bit 15 is clear exactly as in the inverted encoding of
500, and the compare values 0 and 1 get the same non-inverted word, so the
encoding is not injective. -/
theorem C1_ch_value_loses_compare :
    PWM_NRFX_CH_VALUE 500 false = 0x7FFF
    ∧ PWM_NRFX_CH_VALUE 500 false &&& PWM_NRFX_CH_COMPARE_MASK ≠ 500
    ∧ PWM_NRFX_CH_VALUE 500 false &&& PWM_NRFX_CH_POLARITY_MASK
        = PWM_NRFX_CH_VALUE 500 true &&& PWM_NRFX_CH_POLARITY_MASK
    ∧ PWM_NRFX_CH_VALUE 0 false = PWM_NRFX_CH_VALUE 1 false
    ∧ PWM_NRFX_CH_VALUE 0x7FFF false = PWM_NRFX_CH_VALUE 0x7FFF true := by
  decide

/-! ## Classifier -/

theorem channel_needs_pwm_eq (i : Fin NRF_PWM_CHANNEL_COUNT) (data : pwm_nrfx_data) :
    channel_needs_pwm i data
      = (data.seq_values i &&& PWM_NRFX_CH_COMPARE_MASK != 0
          && data.seq_values i &&& PWM_NRFX_CH_COMPARE_MASK != PWM_NRFX_CH_COMPARE_MASK) :=
  rfl

theorem any_other_channel_needs_pwm_iff (channel : Nat) (data : pwm_nrfx_data) :
    any_other_channel_needs_pwm channel data = true
      ↔ ∃ i : Fin NRF_PWM_CHANNEL_COUNT, i.val ≠ channel ∧ channel_needs_pwm i data = true := by
  simp [any_other_channel_needs_pwm, List.any_eq_true]

theorem any_other_channel_needs_pwm_false_iff (channel : Nat) (data : pwm_nrfx_data) :
    any_other_channel_needs_pwm channel data = false
      ↔ ∀ i : Fin NRF_PWM_CHANNEL_COUNT, i.val ≠ channel → channel_needs_pwm i data = false := by
  rw [← Bool.not_eq_true, any_other_channel_needs_pwm_iff]
  simp

/-- C7: for every channel word `w = seq_values[i]`, `channel_needs_pwm` is false
exactly when the compare field `w & 0x7FFF` is 0 or 0x7FFF, true for every
other compare field, and gives the same answer for the word with bit 15
flipped. -/
theorem C7_channel_needs_pwm_classifier (data : pwm_nrfx_data)
    (i : Fin NRF_PWM_CHANNEL_COUNT) :
    (channel_needs_pwm i data = false
      ↔ (data.seq_values i &&& 0x7FFF = 0 ∨ data.seq_values i &&& 0x7FFF = 0x7FFF))
    ∧ (channel_needs_pwm i data = true
      ↔ (data.seq_values i &&& 0x7FFF ≠ 0 ∧ data.seq_values i &&& 0x7FFF ≠ 0x7FFF))
    ∧ channel_needs_pwm i
        { data with seq_values :=
            Function.update data.seq_values i (data.seq_values i ^^^ 0x8000) }
      = channel_needs_pwm i data := by
  refine ⟨?_, ?_, ?_⟩
  · rw [channel_needs_pwm_eq]
    have hm : PWM_NRFX_CH_COMPARE_MASK = 0x7FFF := by decide
    rw [hm]
    by_cases h0 : data.seq_values i &&& 0x7FFF = 0
    · simp [h0]
    · by_cases h1 : data.seq_values i &&& 0x7FFF = 0x7FFF
      · simp [h1]
      · simp [h0, h1]
  · rw [channel_needs_pwm_eq]
    have hm : PWM_NRFX_CH_COMPARE_MASK = 0x7FFF := by decide
    rw [hm]
    simp
  · have hx := xor_polarity_and_compare (data.seq_values i)
    have hp : PWM_NRFX_CH_POLARITY_MASK = 0x8000 := by decide
    rw [hp] at hx
    simp only [channel_needs_pwm_eq, Function.update_same, hx]

/-! ## Timing-base resolver -/

/-- C4: a request for the period that is already committed returns true,
whatever the channel argument and whatever the other channels hold, leaves the
driver data (so `period_cycles` and `prescaler`) as it was and makes no
hardware call (so no `nrf_pwm_configure`). -/
theorem C4_period_fast_path (config : pwm_nrfx_config) (data : pwm_nrfx_data)
    (channel : Nat) :
    pwm_period_check_and_set config data channel data.period_cycles = (true, data, []) := by
  simp [pwm_period_check_and_set]

/-- The search loop, entered at `prescaler = p` with `countertop = P >> p`
after all smaller prescalers were rejected and with one pass left per remaining
prescaler value: it commits the least prescaler that fits and programs the
timer once, or it finds that none of 0..7 fits and changes nothing. -/
theorem pwm_period_search_spec (config : pwm_nrfx_config) (data : pwm_nrfx_data)
    (P : Nat) :
    ∀ (n p : Nat), n + p = PWM_PRESCALER_PRESCALER_Msk + 1 →
      p ≤ PWM_PRESCALER_PRESCALER_Msk →
      (∀ q, q < p → ¬ (P >>> q ≤ PWM_COUNTERTOP_COUNTERTOP_Msk)) →
      (∃ p1, p1 ≤ PWM_PRESCALER_PRESCALER_Msk
          ∧ P >>> p1 ≤ PWM_COUNTERTOP_COUNTERTOP_Msk
          ∧ (∀ q, q < p1 → ¬ (P >>> q ≤ PWM_COUNTERTOP_COUNTERTOP_Msk))
          ∧ pwm_period_search config data P n p (P >>> p)
              = (true, { data with period_cycles := P, prescaler := p1 },
                  [nrf_pwm_configure p1 config.count_mode (P >>> p1)]))
      ∨ ((∀ q, q ≤ PWM_PRESCALER_PRESCALER_Msk → ¬ (P >>> q ≤ PWM_COUNTERTOP_COUNTERTOP_Msk))
          ∧ pwm_period_search config data P n p (P >>> p) = (false, data, [])) := by
  have h7 : PWM_PRESCALER_PRESCALER_Msk = 7 := rfl
  have hm : PWM_COUNTERTOP_COUNTERTOP_Msk = 32767 := rfl
  intro n
  induction n with
  | zero =>
    intro p hn hp _
    omega
  | succ n ih =>
    intro p hn hp hlt
    by_cases hc : P >>> p ≤ PWM_COUNTERTOP_COUNTERTOP_Msk
    · left
      refine ⟨p, hp, hc, hlt, ?_⟩
      have hmod : P >>> p % 65536 = P >>> p := Nat.mod_eq_of_lt (by omega)
      simp [pwm_period_search, hc, hmod]
    · have hp1 : (p + 1) % 256 = p + 1 := Nat.mod_eq_of_lt (by omega)
      have hsh : P >>> p >>> 1 = P >>> (p + 1) := by
        rw [← Nat.shiftRight_add]
      have hlt1 : ∀ q, q < p + 1 → ¬ (P >>> q ≤ PWM_COUNTERTOP_COUNTERTOP_Msk) := by
        intro q hq
        rcases Nat.lt_succ_iff_lt_or_eq.mp hq with h | h
        · exact hlt q h
        · rw [h]; exact hc
      by_cases hp7 : p + 1 ≤ PWM_PRESCALER_PRESCALER_Msk
      · have hrec : pwm_period_search config data P (n + 1) p (P >>> p)
            = pwm_period_search config data P n (p + 1) (P >>> (p + 1)) := by
          rw [pwm_period_search]
          simp only [hp1, hsh]
          rw [if_neg hc, if_pos hp7]
        rw [hrec]
        exact ih (p + 1) (by omega) hp7 hlt1
      · right
        refine ⟨?_, ?_⟩
        · intro q hq
          exact hlt1 q (by omega)
        · rw [pwm_period_search]
          simp only [hp1, hsh]
          rw [if_neg hc, if_neg hp7]

/-- One pass per prescaler value is enough: the search loop gives the same
result with any larger number of passes, so the bound of the model is never
what ends the loop. -/
theorem pwm_period_search_bound (config : pwm_nrfx_config) (data : pwm_nrfx_data)
    (P : Nat) :
    ∀ (n p c : Nat), p ≤ PWM_PRESCALER_PRESCALER_Msk →
      PWM_PRESCALER_PRESCALER_Msk + 1 ≤ n + p →
      pwm_period_search config data P (n + 1) p c
        = pwm_period_search config data P n p c := by
  have h7 : PWM_PRESCALER_PRESCALER_Msk = 7 := rfl
  intro n
  induction n with
  | zero =>
    intro p c hp hn
    omega
  | succ n ih =>
    intro p c hp hn
    have hp1 : (p + 1) % 256 = p + 1 := Nat.mod_eq_of_lt (by omega)
    rw [pwm_period_search, pwm_period_search.eq_def config data P (n + 1)]
    simp only [hp1]
    by_cases hc : c ≤ PWM_COUNTERTOP_COUNTERTOP_Msk
    · rw [if_pos hc, if_pos hc]
    · rw [if_neg hc, if_neg hc]
      by_cases hp7 : p + 1 ≤ PWM_PRESCALER_PRESCALER_Msk
      · rw [if_pos hp7, if_pos hp7]
        exact ih (p + 1) (c >>> 1) hp7 (by omega)
      · rw [if_neg hp7, if_neg hp7]

/-- The resolver, once the search is reached: see `pwm_period_search_spec`. -/
theorem pwm_period_check_and_set_search (config : pwm_nrfx_config)
    (data : pwm_nrfx_data) (c P : Nat) (hP : P ≠ data.period_cycles)
    (hother : any_other_channel_needs_pwm c data = false) :
    (∃ p1, p1 ≤ PWM_PRESCALER_PRESCALER_Msk
        ∧ P >>> p1 ≤ PWM_COUNTERTOP_COUNTERTOP_Msk
        ∧ (∀ q, q < p1 → ¬ (P >>> q ≤ PWM_COUNTERTOP_COUNTERTOP_Msk))
        ∧ pwm_period_check_and_set config data c P
            = (true, { data with period_cycles := P, prescaler := p1 },
                [nrf_pwm_configure p1 config.count_mode (P >>> p1)]))
    ∨ ((∀ q, q ≤ PWM_PRESCALER_PRESCALER_Msk → ¬ (P >>> q ≤ PWM_COUNTERTOP_COUNTERTOP_Msk))
        ∧ pwm_period_check_and_set config data c P = (false, data, [])) := by
  have h := pwm_period_search_spec config data P (PWM_PRESCALER_PRESCALER_Msk + 1) 0
    (by omega) (by omega) (by intro q hq; omega)
  have he : pwm_period_check_and_set config data c P
      = pwm_period_search config data P (PWM_PRESCALER_PRESCALER_Msk + 1) 0 (P >>> 0) := by
    simp [pwm_period_check_and_set, hP, hother]
  rw [he]
  exact h

/-- The resolver changes the driver data or calls the hardware only when it
returns true, and then only when no other channel needs the peripheral. -/
theorem pwm_period_check_and_set_cases (config : pwm_nrfx_config)
    (data : pwm_nrfx_data) (c P : Nat) :
    pwm_period_check_and_set config data c P = (true, data, [])
    ∨ pwm_period_check_and_set config data c P = (false, data, [])
    ∨ (any_other_channel_needs_pwm c data = false ∧ P ≠ data.period_cycles
        ∧ ∃ p1, p1 ≤ PWM_PRESCALER_PRESCALER_Msk
          ∧ P >>> p1 ≤ PWM_COUNTERTOP_COUNTERTOP_Msk
          ∧ pwm_period_check_and_set config data c P
            = (true, { data with period_cycles := P, prescaler := p1 },
                [nrf_pwm_configure p1 config.count_mode (P >>> p1)])) := by
  by_cases hP : P = data.period_cycles
  · left
    rw [hP]
    simp [pwm_period_check_and_set]
  · by_cases ho : any_other_channel_needs_pwm c data = true
    · right; left
      simp [pwm_period_check_and_set, hP, ho]
    · have ho1 : any_other_channel_needs_pwm c data = false := by simpa using ho
      rcases pwm_period_check_and_set_search config data c P hP ho1 with
        ⟨p1, h1, h2, _, h4⟩ | ⟨_, h2⟩
      · right; right
        exact ⟨ho1, hP, p1, h1, h2, h4⟩
      · right; left
        exact h2

/-- C6 (the claim fails as stated): the period `2 ^ 22` has no bit set above
bit 29, the search is reached for it from the state left by init, and the
resolver returns false without programming the timer: `2 ^ 22 >> 7` is 32768,
one more than the countertop register holds, and 7 is the largest prescaler
tried. -/
theorem C6_counterexample :
    (4194304 : Nat) < 2 ^ 30
    ∧ 4194304 ≠ data_after_init.period_cycles
    ∧ any_other_channel_needs_pwm 0 data_after_init = false
    ∧ (pwm_period_check_and_set config_up data_after_init 0 4194304).1 = false
    ∧ (pwm_period_check_and_set config_up data_after_init 0 4194304).2.2 = [] := by
  decide

/-- C6 (amended): for every period `P < 2 ^ 22` (no bit set above bit 21),
whenever the search is reached (`P` differs from the committed period and no
other channel needs the peripheral), the resolver returns true, commits `P`
with the least prescaler `p` in 0..7 for which `P >> p` fits the countertop
register, and programs the timer once, with countertop `P >> p`. -/
theorem C6_prescaler_search_range (config : pwm_nrfx_config) (data : pwm_nrfx_data)
    (c P : Nat) (hP : P < 2 ^ 22) (hne : P ≠ data.period_cycles)
    (hother : any_other_channel_needs_pwm c data = false) :
    ∃ p, p ≤ PWM_PRESCALER_PRESCALER_Msk
      ∧ P >>> p ≤ PWM_COUNTERTOP_COUNTERTOP_Msk
      ∧ (∀ q, q < p → ¬ (P >>> q ≤ PWM_COUNTERTOP_COUNTERTOP_Msk))
      ∧ pwm_period_check_and_set config data c P
          = (true, { data with period_cycles := P, prescaler := p },
              [nrf_pwm_configure p config.count_mode (P >>> p)]) := by
  rcases pwm_period_check_and_set_search config data c P hne hother with h | ⟨h, _⟩
  · exact h
  · exfalso
    apply h 7 (le_refl _)
    have h1 : P >>> 7 = P / 128 := by
      rw [Nat.shiftRight_eq_div_pow]
    have h2 : (2 : Nat) ^ 22 = 4194304 := by norm_num
    have hm : PWM_COUNTERTOP_COUNTERTOP_Msk = 32767 := rfl
    omega

/-- C6 (amended), at a concrete input: from the state left by init, the period
100000 reaches the search and is committed with the least prescaler that fits
(it is 2, with countertop 25000). -/
theorem C6_prescaler_search_range_witness :
    (100000 < 2 ^ 22 ∧ 100000 ≠ data_after_init.period_cycles
      ∧ any_other_channel_needs_pwm 0 data_after_init = false)
    ∧ ∃ p, p ≤ PWM_PRESCALER_PRESCALER_Msk
      ∧ 100000 >>> p ≤ PWM_COUNTERTOP_COUNTERTOP_Msk
      ∧ (∀ q, q < p → ¬ (100000 >>> q ≤ PWM_COUNTERTOP_COUNTERTOP_Msk))
      ∧ pwm_period_check_and_set config_up data_after_init 0 100000
          = (true, { data_after_init with period_cycles := 100000, prescaler := p },
              [nrf_pwm_configure p config_up.count_mode (100000 >>> p)]) :=
  ⟨⟨by norm_num, by decide, by decide⟩,
    C6_prescaler_search_range config_up data_after_init 0 100000 (by norm_num)
      (by decide) (by decide)⟩

/-! ## Channel update -/

/-- The duty classification returns `none` exactly for a genuine PWM request
that the resolver refuses. -/
theorem set_cycles_classify_none_iff (config : pwm_nrfx_config) (data : pwm_nrfx_data)
    (c P D : Nat) :
    set_cycles_classify config data c P D = none
      ↔ (0 < D ∧ D < P ∧ (pwm_period_check_and_set config data c P).1 = false) := by
  unfold set_cycles_classify
  by_cases h0 : D = 0
  · simp [h0]
  · by_cases h1 : D ≥ P
    · have : ¬ D < P := by omega
      simp [h0, h1, this]
    · have h2 : D < P := by omega
      have h3 : 0 < D := by omega
      have h4 : ¬ P ≤ D := by omega
      rw [if_neg h0, if_neg h1]
      rcases hr : pwm_period_check_and_set config data c P with ⟨b, d1, t1⟩
      cases b <;> simp [h2, h3]

/-- What the duty classification returns when it does not fail. -/
theorem set_cycles_classify_some (config : pwm_nrfx_config) (data : pwm_nrfx_data)
    (c P D : Nat) (cv : Nat) (np : Bool) (d1 : pwm_nrfx_data) (t1 : List HwAction)
    (h : set_cycles_classify config data c P D = some (cv, np, d1, t1)) :
    (D = 0 ∧ cv = 0 ∧ np = false ∧ d1 = data ∧ t1 = [])
    ∨ (D ≠ 0 ∧ P ≤ D ∧ cv = PWM_NRFX_CH_COMPARE_MASK ∧ np = false ∧ d1 = data ∧ t1 = [])
    ∨ (0 < D ∧ D < P ∧ np = true
        ∧ pwm_period_check_and_set config data c P = (true, d1, t1)
        ∧ cv = (D >>> d1.prescaler) % 65536) := by
  unfold set_cycles_classify at h
  by_cases h0 : D = 0
  · left
    rw [if_pos h0] at h
    simp only [Option.some.injEq, Prod.mk.injEq] at h
    obtain ⟨ha, hb, hc, hd⟩ := h
    exact ⟨h0, ha.symm, hb.symm, hc.symm, hd.symm⟩
  · by_cases h1 : D ≥ P
    · right; left
      rw [if_neg h0, if_pos h1] at h
      simp only [Option.some.injEq, Prod.mk.injEq] at h
      obtain ⟨ha, hb, hc, hd⟩ := h
      exact ⟨h0, h1, ha.symm, hb.symm, hc.symm, hd.symm⟩
    · right; right
      rw [if_neg h0, if_neg h1] at h
      rcases hr : pwm_period_check_and_set config data c P with ⟨b, d2, t2⟩
      rw [hr] at h
      cases b
      · simp at h
      · simp only [Option.some.injEq, Prod.mk.injEq] at h
        obtain ⟨ha, hb, hc, hd⟩ := h
        subst hc hd
        exact ⟨by omega, by omega, hb.symm, rfl, ha.symm⟩

/-- A poll sequence that ends the busy wait exists as soon as the hardware
reports "stopped" within the bound. -/
theorem wait_stopped_some (hw : nrf_hw) :
    ∀ (fuel k : Nat), (∃ j, j ≤ fuel ∧ hw.is_stopped (k + j) = true) →
      ∃ t, wait_stopped hw fuel k = some t := by
  intro fuel
  induction fuel with
  | zero =>
    intro k ⟨j, hj, hs⟩
    have : j = 0 := by omega
    subst this
    unfold wait_stopped
    simp at hs
    simp [hs]
  | succ f ih =>
    intro k ⟨j, hj, hs⟩
    unfold wait_stopped
    by_cases h0 : hw.is_stopped k = true
    · simp [h0]
    · cases j with
      | zero => simp at hs; exact absurd hs h0
      | succ j1 =>
        have hex : ∃ j, j ≤ f ∧ hw.is_stopped (k + 1 + j) = true :=
          ⟨j1, by omega, by rw [← hs]; congr 1; omega⟩
        obtain ⟨t, ht⟩ := ih (k + 1) hex
        simp [h0, ht]

/-- The busy wait only polls, and its last poll (and no earlier one) is
answered "stopped". -/
theorem wait_stopped_shape (hw : nrf_hw) :
    ∀ (fuel k : Nat) (t : List HwAction), wait_stopped hw fuel k = some t →
      ∃ n, t = List.replicate n (nrfx_pwm_is_stopped false) ++ [nrfx_pwm_is_stopped true] := by
  intro fuel
  induction fuel with
  | zero =>
    intro k t h
    unfold wait_stopped at h
    by_cases h0 : hw.is_stopped k = true
    · simp [h0] at h
      exact ⟨0, by simp [← h]⟩
    · simp [h0] at h
  | succ f ih =>
    intro k t h
    unfold wait_stopped at h
    by_cases h0 : hw.is_stopped k = true
    · simp [h0] at h
      exact ⟨0, by simp [← h]⟩
    · simp [h0] at h
      obtain ⟨t1, ht1, hcons⟩ := h
      obtain ⟨n, hn⟩ := ih (k + 1) t1 ht1
      refine ⟨n + 1, ?_⟩
      rw [← hcons, hn, List.replicate_succ]
      rfl

/-- The stop-or-playback step, by cases. -/
theorem set_cycles_playback_some (fuel : Nat) (hw : nrf_hw) (data : pwm_nrfx_data)
    (c : Nat) (np : Bool) (d2 : pwm_nrfx_data) (t2 : List HwAction)
    (h : set_cycles_playback fuel hw data c np = some (d2, t2)) :
    (np = false ∧ any_other_channel_needs_pwm c data = false
        ∧ d2 = { data with stop_requested := true } ∧ t2 = [nrfx_pwm_stop false])
    ∨ (¬ (np = false ∧ any_other_channel_needs_pwm c data = false)
        ∧ data.stop_requested = true
        ∧ d2 = { data with stop_requested := false }
        ∧ ∃ n, t2 = List.replicate n (nrfx_pwm_is_stopped false)
            ++ [nrfx_pwm_is_stopped true] ++ [nrfx_pwm_simple_playback 1 0])
    ∨ (¬ (np = false ∧ any_other_channel_needs_pwm c data = false)
        ∧ data.stop_requested = false
        ∧ d2 = data ∧ t2 = [nrfx_pwm_simple_playback 1 0]) := by
  unfold set_cycles_playback at h
  by_cases hc : np = false ∧ any_other_channel_needs_pwm c data = false
  · left
    have hif : (!np && !any_other_channel_needs_pwm c data) = true := by
      simp [hc.1, hc.2]
    rw [if_pos hif] at h
    simp only [Option.some.injEq, Prod.mk.injEq] at h
    exact ⟨hc.1, hc.2, h.1.symm, h.2.symm⟩
  · have hif : ¬ ((!np && !any_other_channel_needs_pwm c data) = true) := by
      intro hh
      apply hc
      simpa using hh
    rw [if_neg hif] at h
    by_cases hs : data.stop_requested = true
    · right; left
      rw [if_pos hs] at h
      rcases hw0 : wait_stopped hw fuel 0 with _ | polls
      · rw [hw0] at h; simp at h
      · rw [hw0] at h
        simp only [Option.some.injEq, Prod.mk.injEq] at h
        obtain ⟨n, hn⟩ := wait_stopped_shape hw fuel 0 polls hw0
        exact ⟨hc, hs, h.1.symm, n, by rw [← h.2, hn]⟩
    · right; right
      rw [if_neg hs] at h
      simp only [Option.some.injEq, Prod.mk.injEq] at h
      exact ⟨hc, by simpa using hs, h.1.symm, h.2.symm⟩

/-- The stop-or-playback step leaves the channel words alone, so the answer of
`any_other_channel_needs_pwm` is the same before and after it. -/
theorem set_cycles_playback_any_other (fuel : Nat) (hw : nrf_hw) (data : pwm_nrfx_data)
    (c : Nat) (np : Bool) (d2 : pwm_nrfx_data) (t2 : List HwAction)
    (h : set_cycles_playback fuel hw data c np = some (d2, t2)) (c1 : Nat) :
    any_other_channel_needs_pwm c1 d2 = any_other_channel_needs_pwm c1 data := by
  rcases set_cycles_playback_some _ _ _ _ _ _ _ h with
    ⟨_, _, hd2, _⟩ | ⟨_, _, hd2, _⟩ | ⟨_, _, hd2, _⟩
  · rw [hd2]; rfl
  · rw [hd2]; rfl
  · rw [hd2]

/-- The stop-or-playback step returns when the stop branch is taken, when no
stop is pending, or when the hardware reports "stopped" within the bound. -/
theorem set_cycles_playback_returns (fuel : Nat) (hw : nrf_hw) (data : pwm_nrfx_data)
    (c : Nat) (np : Bool)
    (hstop : data.stop_requested = true → ∃ j, j ≤ fuel ∧ hw.is_stopped j = true) :
    ∃ r, set_cycles_playback fuel hw data c np = some r := by
  unfold set_cycles_playback
  by_cases hif : (!np && !any_other_channel_needs_pwm c data) = true
  · rw [if_pos hif]; exact ⟨_, rfl⟩
  · rw [if_neg hif]
    by_cases hs : data.stop_requested = true
    · rw [if_pos hs]
      obtain ⟨j, hj, hjs⟩ := hstop hs
      obtain ⟨t, ht⟩ := wait_stopped_some hw fuel 0 ⟨j, hj, by simpa using hjs⟩
      rw [ht]; exact ⟨_, rfl⟩
    · rw [if_neg hs]; exact ⟨_, rfl⟩

/-- The commit step returns 0 whenever it returns, with the data and hardware
calls of the stop-or-playback step appended. -/
theorem set_cycles_commit_some (fuel : Nat) (hw : nrf_hw) (data : pwm_nrfx_data)
    (ch : Fin NRF_PWM_CHANNEL_COUNT) (D : Nat) (inv : Bool) (cv : Nat) (np : Bool)
    (t0 : List HwAction) (o : set_cycles_result)
    (h : set_cycles_commit fuel hw data ch D inv cv np t0 = some o) :
    ∃ d2 t2,
      set_cycles_playback fuel hw
          { data with seq_values :=
              Function.update data.seq_values ch (PWM_NRFX_CH_VALUE cv inv % 65536) }
          ch.val np = some (d2, t2)
      ∧ o = ⟨0, d2, t0 ++ set_cycles_gpio hw ch D inv np ++ t2⟩ := by
  unfold set_cycles_commit at h
  simp only at h
  rcases hp : set_cycles_playback fuel hw
      { data with seq_values :=
          Function.update data.seq_values ch (PWM_NRFX_CH_VALUE cv inv % 65536) }
      ch.val np with _ | ⟨d2, t2⟩
  · rw [hp] at h; simp at h
  · rw [hp] at h
    simp only [Option.some.injEq] at h
    exact ⟨d2, t2, rfl, h.symm⟩

/-- The commit step returns as soon as the stop-or-playback step does. -/
theorem set_cycles_commit_returns (fuel : Nat) (hw : nrf_hw) (data : pwm_nrfx_data)
    (ch : Fin NRF_PWM_CHANNEL_COUNT) (D : Nat) (inv : Bool) (cv : Nat) (np : Bool)
    (t0 : List HwAction)
    (hstop : data.stop_requested = true → ∃ j, j ≤ fuel ∧ hw.is_stopped j = true) :
    ∃ o, set_cycles_commit fuel hw data ch D inv cv np t0 = some o ∧ o.ret = 0 := by
  obtain ⟨⟨d2, t2⟩, hr⟩ := set_cycles_playback_returns fuel hw
    { data with seq_values :=
        Function.update data.seq_values ch (PWM_NRFX_CH_VALUE cv inv % 65536) }
    ch.val np hstop
  unfold set_cycles_commit
  simp only
  rw [hr]
  exact ⟨_, rfl, rfl⟩

/-- An out-of-range channel is refused with nothing done. -/
theorem set_cycles_invalid_channel (fuel : Nat) (hw : nrf_hw) (config : pwm_nrfx_config)
    (data : pwm_nrfx_data) (channel P D flags : Nat)
    (hc : channel ≥ NRF_PWM_CHANNEL_COUNT) :
    pwm_nrfx_set_cycles fuel hw config data channel P D flags
      = some ⟨-EINVAL, data, []⟩ := by
  unfold pwm_nrfx_set_cycles
  simp only
  rw [dif_pos hc]

/-- A request the duty classification refuses is refused with nothing done. -/
theorem set_cycles_refused (fuel : Nat) (hw : nrf_hw) (config : pwm_nrfx_config)
    (data : pwm_nrfx_data) (channel P D flags : Nat)
    (hc : channel < NRF_PWM_CHANNEL_COUNT)
    (hn : set_cycles_classify config data channel (center_aligned_adjust config P)
      (center_aligned_adjust config D) = none) :
    pwm_nrfx_set_cycles fuel hw config data channel P D flags
      = some ⟨-EINVAL, data, []⟩ := by
  unfold pwm_nrfx_set_cycles
  simp only
  rw [dif_neg (by omega), hn]

/-- A request the duty classification accepts goes on to the commit step. -/
theorem set_cycles_accepted (fuel : Nat) (hw : nrf_hw) (config : pwm_nrfx_config)
    (data : pwm_nrfx_data) (channel P D flags : Nat)
    (hc : channel < NRF_PWM_CHANNEL_COUNT)
    (cv : Nat) (np : Bool) (d1 : pwm_nrfx_data) (t1 : List HwAction)
    (hs : set_cycles_classify config data channel (center_aligned_adjust config P)
      (center_aligned_adjust config D) = some (cv, np, d1, t1)) :
    pwm_nrfx_set_cycles fuel hw config data channel P D flags
      = set_cycles_commit fuel hw d1 ⟨channel, hc⟩ (center_aligned_adjust config D)
          ((flags &&& PWM_POLARITY_INVERTED) != 0) cv np t1 := by
  unfold pwm_nrfx_set_cycles
  simp only
  rw [dif_neg (by omega), hs]

/-- A call that returns a non-zero result has changed nothing and called
nothing. -/
theorem set_cycles_error_unchanged (fuel : Nat) (hw : nrf_hw) (config : pwm_nrfx_config)
    (data : pwm_nrfx_data) (channel period_cycles pulse_cycles flags : Nat)
    (o : set_cycles_result)
    (h : pwm_nrfx_set_cycles fuel hw config data channel period_cycles pulse_cycles flags
      = some o)
    (herr : o.ret ≠ 0) :
    o.data = data ∧ o.trace = [] := by
  by_cases hc : channel ≥ NRF_PWM_CHANNEL_COUNT
  · rw [set_cycles_invalid_channel fuel hw config data channel _ _ flags hc] at h
    simp only [Option.some.injEq] at h
    rw [← h]
    exact ⟨rfl, rfl⟩
  · have hc1 : channel < NRF_PWM_CHANNEL_COUNT := by omega
    rcases hcl : set_cycles_classify config data channel
        (center_aligned_adjust config period_cycles)
        (center_aligned_adjust config pulse_cycles) with _ | ⟨cv, np, d1, t1⟩
    · rw [set_cycles_refused fuel hw config data channel _ _ flags hc1 hcl] at h
      simp only [Option.some.injEq] at h
      rw [← h]
      exact ⟨rfl, rfl⟩
    · rw [set_cycles_accepted fuel hw config data channel _ _ flags hc1 cv np d1 t1 hcl] at h
      obtain ⟨d2, t2, _, ho⟩ := set_cycles_commit_some _ _ _ _ _ _ _ _ _ _ h
      rw [ho] at herr
      exact absurd rfl herr

/-- C2: if `pwm_nrfx_set_cycles` returns a non-zero result, the driver data
(`period_cycles`, `prescaler`, every `seq_values` entry, `stop_requested`,
`initially_inverted`) is what it was before the call and no hardware call was
made. -/
theorem C2_error_leaves_state (fuel : Nat) (hw : nrf_hw) (config : pwm_nrfx_config)
    (data : pwm_nrfx_data) (channel period_cycles pulse_cycles flags : Nat)
    (o : set_cycles_result)
    (h : pwm_nrfx_set_cycles fuel hw config data channel period_cycles pulse_cycles flags
      = some o)
    (herr : o.ret ≠ 0) :
    o.data = data ∧ o.trace = [] :=
  set_cycles_error_unchanged fuel hw config data channel period_cycles pulse_cycles flags
    o h herr

/-- C2, at a concrete input: channel 0 holds compare value 500 under period
1000; channel 1 asking for period 2000 with pulse 500 gets `-EINVAL`, and the
data is unchanged with no hardware call. -/
theorem C2_error_leaves_state_witness :
    pwm_nrfx_set_cycles 0 hw_idle_low config_up data_ch0_driven 1 2000 500 0
        = some ⟨-EINVAL, data_ch0_driven, []⟩
    ∧ (⟨-EINVAL, data_ch0_driven, []⟩ : set_cycles_result).ret ≠ 0
    ∧ (⟨-EINVAL, data_ch0_driven, []⟩ : set_cycles_result).data = data_ch0_driven
    ∧ (⟨-EINVAL, data_ch0_driven, []⟩ : set_cycles_result).trace = [] :=
  ⟨rfl, by decide,
    C2_error_leaves_state 0 hw_idle_low config_up data_ch0_driven 1 2000 500 0
      ⟨-EINVAL, data_ch0_driven, []⟩ rfl (by decide)⟩

/-- C3: `pwm_nrfx_set_cycles` returns `-EINVAL` if and only if the channel is
out of range or the request, after the center-aligned halving, is genuine PWM
(`0 < pulse < period`) and the resolver returns false; in that case it does so for every
hardware and every poll bound.  In every other case a call that returns
returns 0, and the call does return as soon as no stop is pending or the
hardware reports "stopped" within the poll bound; in particular this holds, in
every state, for a valid channel with `pulse == 0` or `pulse >= period`. -/
theorem C3_failure_characterisation (fuel : Nat) (hw : nrf_hw) (config : pwm_nrfx_config)
    (data : pwm_nrfx_data) (channel period_cycles pulse_cycles flags : Nat) :
    ((channel ≥ NRF_PWM_CHANNEL_COUNT
        ∨ (0 < center_aligned_adjust config pulse_cycles
            ∧ center_aligned_adjust config pulse_cycles
                < center_aligned_adjust config period_cycles
            ∧ (pwm_period_check_and_set config data channel
                (center_aligned_adjust config period_cycles)).1 = false)) →
      pwm_nrfx_set_cycles fuel hw config data channel period_cycles pulse_cycles flags
        = some ⟨-EINVAL, data, []⟩)
    ∧ (¬ (channel ≥ NRF_PWM_CHANNEL_COUNT
        ∨ (0 < center_aligned_adjust config pulse_cycles
            ∧ center_aligned_adjust config pulse_cycles
                < center_aligned_adjust config period_cycles
            ∧ (pwm_period_check_and_set config data channel
                (center_aligned_adjust config period_cycles)).1 = false)) →
      (∀ o, pwm_nrfx_set_cycles fuel hw config data channel period_cycles pulse_cycles flags
          = some o → o.ret = 0)
      ∧ ((data.stop_requested = true → ∃ j, j ≤ fuel ∧ hw.is_stopped j = true) →
          ∃ o, pwm_nrfx_set_cycles fuel hw config data channel period_cycles pulse_cycles
            flags = some o ∧ o.ret = 0))
    ∧ (channel < NRF_PWM_CHANNEL_COUNT →
        (center_aligned_adjust config pulse_cycles = 0
          ∨ center_aligned_adjust config pulse_cycles
              ≥ center_aligned_adjust config period_cycles) →
        (data.stop_requested = true → ∃ j, j ≤ fuel ∧ hw.is_stopped j = true) →
        ∃ o, pwm_nrfx_set_cycles fuel hw config data channel period_cycles pulse_cycles
          flags = some o ∧ o.ret = 0) := by
  have key : ¬ (channel ≥ NRF_PWM_CHANNEL_COUNT
        ∨ (0 < center_aligned_adjust config pulse_cycles
            ∧ center_aligned_adjust config pulse_cycles
                < center_aligned_adjust config period_cycles
            ∧ (pwm_period_check_and_set config data channel
                (center_aligned_adjust config period_cycles)).1 = false)) →
      (∀ o, pwm_nrfx_set_cycles fuel hw config data channel period_cycles pulse_cycles flags
          = some o → o.ret = 0)
      ∧ ((data.stop_requested = true → ∃ j, j ≤ fuel ∧ hw.is_stopped j = true) →
          ∃ o, pwm_nrfx_set_cycles fuel hw config data channel period_cycles pulse_cycles
            flags = some o ∧ o.ret = 0) := by
    intro hnf
    have hc1 : channel < NRF_PWM_CHANNEL_COUNT := by
      by_contra hge
      exact hnf (Or.inl (by omega))
    rcases hcl : set_cycles_classify config data channel
        (center_aligned_adjust config period_cycles)
        (center_aligned_adjust config pulse_cycles) with _ | ⟨cv, np, d1, t1⟩
    · exact absurd (Or.inr ((set_cycles_classify_none_iff _ _ _ _ _).mp hcl)) hnf
    · rw [set_cycles_accepted fuel hw config data channel _ _ flags hc1 cv np d1 t1 hcl]
      constructor
      · intro o ho
        obtain ⟨d2, t2, _, hoe⟩ := set_cycles_commit_some _ _ _ _ _ _ _ _ _ _ ho
        rw [hoe]
      · intro hstop
        have hd1 : d1.stop_requested = data.stop_requested := by
          rcases set_cycles_classify_some _ _ _ _ _ _ _ _ _ hcl with
            ⟨_, _, _, hd, _⟩ | ⟨_, _, _, _, hd, _⟩ | ⟨_, _, _, hr, _⟩
          · rw [hd]
          · rw [hd]
          · rcases pwm_period_check_and_set_cases config data channel
              (center_aligned_adjust config period_cycles) with h | h | ⟨_, _, p1, _, _, h⟩
            · rw [h] at hr
              simp only [Prod.mk.injEq, true_and] at hr
              rw [← hr.1]
            · rw [h] at hr
              simp at hr
            · rw [h] at hr
              simp only [Prod.mk.injEq, true_and] at hr
              rw [← hr.1]
        exact set_cycles_commit_returns fuel hw d1 ⟨channel, hc1⟩ _ _ cv np t1
          (by rw [hd1]; exact hstop)
  refine ⟨?_, key, ?_⟩
  · rintro (hc | hg)
    · exact set_cycles_invalid_channel fuel hw config data channel _ _ flags hc
    · by_cases hc : channel ≥ NRF_PWM_CHANNEL_COUNT
      · exact set_cycles_invalid_channel fuel hw config data channel _ _ flags hc
      · exact set_cycles_refused fuel hw config data channel _ _ flags (by omega)
          ((set_cycles_classify_none_iff _ _ _ _ _).mpr hg)
  · intro hc hconst hstop
    apply (key ?_).2 hstop
    rintro (hge | ⟨h0, hlt, _⟩)
    · omega
    · omega

/-- C3, at concrete inputs: the refused request of channel 1 (period 2000
against the committed 1000 of the driven channel 0) returns `-EINVAL`, and a
constant-level request on the state left by init returns 0. -/
theorem C3_failure_characterisation_witness :
    ((0 < center_aligned_adjust config_up 500
        ∧ center_aligned_adjust config_up 500 < center_aligned_adjust config_up 2000
        ∧ (pwm_period_check_and_set config_up data_ch0_driven 1
            (center_aligned_adjust config_up 2000)).1 = false)
      ∧ pwm_nrfx_set_cycles 0 hw_idle_low config_up data_ch0_driven 1 2000 500 0
          = some ⟨-EINVAL, data_ch0_driven, []⟩)
    ∧ ((0 < NRF_PWM_CHANNEL_COUNT ∧ center_aligned_adjust config_up 0 = 0)
      ∧ ∃ o, pwm_nrfx_set_cycles 0 hw_idle_low config_up data_after_init 0 1000 0 0
          = some o ∧ o.ret = 0) :=
  ⟨⟨⟨by decide, by decide, by decide⟩,
      (C3_failure_characterisation 0 hw_idle_low config_up data_ch0_driven 1 2000 500 0).1
        (Or.inr ⟨by decide, by decide, by decide⟩)⟩,
    ⟨⟨by decide, by decide⟩,
      (C3_failure_characterisation 0 hw_idle_low config_up data_after_init 0 1000 0 0).2.2
        (by decide) (Or.inl (by decide)) (fun _ => ⟨0, le_refl 0, rfl⟩)⟩⟩

/-- C8 (evaluation of the code where the claim fails): on the state left by
init (all channels non-inverted, `period_cycles = 0`, `prescaler = 0`,
`stop_requested = false`), in up-counting mode, the call for channel 0 with
period 1000, pulse 500 and no inversion returns 0, commits period 1000 with
prescaler 0, programs the timer with countertop 1000 and requests one playback
and no stop, but the word stored for channel 0 is `0x7FFF`: its compare field
is `0x7FFF`, not 500. -/
theorem C8_first_pwm_stores_sentinel :
    (pwm_nrfx_init hw_idle_low config_up pwm_nrfx_data_zero).1 = 0
    ∧ (data_after_init.period_cycles, data_after_init.prescaler,
        data_after_init.stop_requested, data_after_init.initially_inverted)
        = (0, 0, false, 0)
    ∧ Option.map
        (fun o => (o.ret, o.data.period_cycles, o.data.prescaler, o.trace,
          o.data.seq_values 0, o.data.seq_values 0 &&& 0x7FFF))
        (pwm_nrfx_set_cycles 0 hw_idle_low config_up data_after_init 0 1000 500 0)
      = some (0, 1000, 0,
          [nrf_pwm_configure 0 NRF_PWM_MODE_UP 1000, nrfx_pwm_simple_playback 1 0],
          0x7FFF, 0x7FFF) := by
  refine ⟨?_, ?_, ?_⟩
  · decide
  · decide
  · decide

/-- C9 (evaluation of the code where the claim fails): after the successful
call for channel 0 (period 1000, pulse 500, not inverted) on the state left by
init, the call for channel 1 with period 2000 and pulse 1000 returns 0, not
`-EINVAL`: it commits period 2000 and programs the timer again, because the
word stored for channel 0 by the first call is `0x7FFF`, which
`channel_needs_pwm` takes for a constant level. -/
theorem C9_second_channel_not_refused :
    Option.map (fun o => o.ret)
        (pwm_nrfx_set_cycles 0 hw_idle_low config_up data_after_init 0 1000 500 0)
      = some 0
    ∧ (data_first_pwm.period_cycles, data_first_pwm.prescaler,
        data_first_pwm.seq_values 0, channel_needs_pwm 0 data_first_pwm)
        = (1000, 0, 0x7FFF, false)
    ∧ Option.map (fun o => (o.ret, o.data.period_cycles, o.data.prescaler, o.trace))
        (pwm_nrfx_set_cycles 0 hw_idle_low config_up data_first_pwm 1 2000 1000 0)
      = some (0, 2000, 0,
          [nrf_pwm_configure 0 NRF_PWM_MODE_UP 2000, nrfx_pwm_simple_playback 1 0]) := by
  decide

/-- The resolver programs the timer at most once and calls nothing else. -/
theorem pwm_period_check_and_set_trace (config : pwm_nrfx_config) (data : pwm_nrfx_data)
    (c P : Nat) :
    (pwm_period_check_and_set config data c P).2.2 = []
    ∨ ∃ p top, (pwm_period_check_and_set config data c P).2.2
        = [nrf_pwm_configure p config.count_mode top] := by
  rcases pwm_period_check_and_set_cases config data c P with h | h | ⟨_, _, p1, _, _, h⟩
  · left; rw [h]
  · left; rw [h]
  · right; exact ⟨p1, P >>> p1, by rw [h]⟩

/-- The duty classification programs the timer at most once and calls nothing
else. -/
theorem set_cycles_classify_trace (config : pwm_nrfx_config) (data : pwm_nrfx_data)
    (c P D : Nat) (cv : Nat) (np : Bool) (d1 : pwm_nrfx_data) (t1 : List HwAction)
    (h : set_cycles_classify config data c P D = some (cv, np, d1, t1)) :
    t1 = [] ∨ ∃ p top, t1 = [nrf_pwm_configure p config.count_mode top] := by
  rcases set_cycles_classify_some _ _ _ _ _ _ _ _ _ h with
    ⟨_, _, _, _, ht⟩ | ⟨_, _, _, _, _, ht⟩ | ⟨_, _, _, hr, _⟩
  · exact Or.inl ht
  · exact Or.inl ht
  · have := pwm_period_check_and_set_trace config data c P
    rw [hr] at this
    exact this

/-- The GPIO step writes one pin level or does nothing. -/
theorem set_cycles_gpio_trace (hw : nrf_hw) (ch : Fin NRF_PWM_CHANNEL_COUNT)
    (D : Nat) (inv np : Bool) :
    set_cycles_gpio hw ch D inv np = []
    ∨ ∃ pin v, set_cycles_gpio hw ch D inv np = [nrf_gpio_pin_write pin v] := by
  unfold set_cycles_gpio
  cases np
  · by_cases hconn : (channel_psel_get hw ch).1 = true
    · right
      refine ⟨(channel_psel_get hw ch).2,
        if inv = true then (if D = 0 then 0 else 1) ^^^ 1 else if D = 0 then 0 else 1, ?_⟩
      simp [hconn]
    · left
      simp [hconn]
  · left
    simp

/-- The stop-or-playback step only reads the channel words. -/
theorem any_other_channel_needs_pwm_stop_requested (c : Nat) (data : pwm_nrfx_data)
    (b : Bool) :
    any_other_channel_needs_pwm c { data with stop_requested := b }
      = any_other_channel_needs_pwm c data :=
  rfl

/-- A successful call went through the duty classification and the commit
step. -/
theorem set_cycles_success (fuel : Nat) (hw : nrf_hw) (config : pwm_nrfx_config)
    (data : pwm_nrfx_data) (channel P D flags : Nat) (o : set_cycles_result)
    (h : pwm_nrfx_set_cycles fuel hw config data channel P D flags = some o)
    (hret : o.ret = 0) :
    ∃ (hc : channel < NRF_PWM_CHANNEL_COUNT) (cv : Nat) (np : Bool)
      (d1 : pwm_nrfx_data) (t1 : List HwAction),
      set_cycles_classify config data channel (center_aligned_adjust config P)
          (center_aligned_adjust config D) = some (cv, np, d1, t1)
      ∧ set_cycles_commit fuel hw d1 ⟨channel, hc⟩ (center_aligned_adjust config D)
          ((flags &&& PWM_POLARITY_INVERTED) != 0) cv np t1 = some o := by
  by_cases hc : channel ≥ NRF_PWM_CHANNEL_COUNT
  · rw [set_cycles_invalid_channel fuel hw config data channel _ _ flags hc] at h
    simp only [Option.some.injEq] at h
    rw [← h] at hret
    simp at hret
  · have hc1 : channel < NRF_PWM_CHANNEL_COUNT := by omega
    rcases hcl : set_cycles_classify config data channel
        (center_aligned_adjust config P)
        (center_aligned_adjust config D) with _ | ⟨cv, np, d1, t1⟩
    · rw [set_cycles_refused fuel hw config data channel _ _ flags hc1 hcl] at h
      simp only [Option.some.injEq] at h
      rw [← h] at hret
      simp at hret
    · rw [set_cycles_accepted fuel hw config data channel _ _ flags hc1 cv np d1 t1 hcl] at h
      exact ⟨hc1, cv, np, d1, t1, rfl, h⟩

/-- The stop-or-playback step changes no field other than `stop_requested`. -/
theorem set_cycles_playback_fields (fuel : Nat) (hw : nrf_hw) (data : pwm_nrfx_data)
    (c : Nat) (np : Bool) (d2 : pwm_nrfx_data) (t2 : List HwAction)
    (h : set_cycles_playback fuel hw data c np = some (d2, t2)) :
    d2.period_cycles = data.period_cycles ∧ d2.prescaler = data.prescaler
      ∧ d2.seq_values = data.seq_values
      ∧ d2.initially_inverted = data.initially_inverted := by
  rcases set_cycles_playback_some _ _ _ _ _ _ _ h with
    ⟨_, _, hd2, _⟩ | ⟨_, _, hd2, _⟩ | ⟨_, _, hd2, _⟩ <;>
  · rw [hd2]
    exact ⟨rfl, rfl, rfl, rfl⟩

/-- A call of `pwm_nrfx_set_cycles` that changes `period_cycles` or `prescaler`
is made while no channel other than the requested one needs the peripheral. -/
theorem set_cycles_timing_base_change (fuel : Nat) (hw : nrf_hw)
    (config : pwm_nrfx_config) (data : pwm_nrfx_data) (channel P D flags : Nat)
    (o : set_cycles_result)
    (h : pwm_nrfx_set_cycles fuel hw config data channel P D flags = some o)
    (hch : o.data.period_cycles ≠ data.period_cycles ∨ o.data.prescaler ≠ data.prescaler) :
    any_other_channel_needs_pwm channel data = false := by
  by_cases hret : o.ret = 0
  · obtain ⟨hc, cv, np, d1, t1, hcl, hcm⟩ :=
      set_cycles_success fuel hw config data channel _ _ flags o h hret
    obtain ⟨d2, t2, hpb, ho⟩ := set_cycles_commit_some _ _ _ _ _ _ _ _ _ _ hcm
    obtain ⟨hp, hq, _, _⟩ := set_cycles_playback_fields _ _ _ _ _ _ _ hpb
    have hod : o.data = d2 := by rw [ho]
    rw [hod, hp, hq] at hch
    simp only at hch
    rcases set_cycles_classify_some _ _ _ _ _ _ _ _ _ hcl with
      ⟨_, _, _, hd, _⟩ | ⟨_, _, _, _, hd, _⟩ | ⟨_, _, _, hr, _⟩
    · rw [hd] at hch; simp at hch
    · rw [hd] at hch; simp at hch
    · rcases pwm_period_check_and_set_cases config data channel
        (center_aligned_adjust config P) with e | e | ⟨ho1, _⟩
      · rw [e] at hr
        simp only [Prod.mk.injEq, true_and] at hr
        rw [← hr.1] at hch; simp at hch
      · rw [e] at hr; simp at hr
      · exact ho1
  · have := (set_cycles_error_unchanged fuel hw config data channel P D flags o h hret).1
    rw [this] at hch
    simp at hch

/-- C5: when the requested period differs from the committed one and some
channel other than `c` needs the peripheral, the resolver returns false, leaves
the driver data (so `period_cycles` and `prescaler`) as it was and makes no
hardware call.  Consequently, whenever the resolver changes `period_cycles` or
`prescaler` or programs the timer, and whenever a call of
`pwm_nrfx_set_cycles` for channel `c` changes `period_cycles` or `prescaler`,
no channel other than `c` needs the peripheral at the time of the call. -/
theorem C5_incompatible_period (config : pwm_nrfx_config) (data : pwm_nrfx_data)
    (c P : Nat) :
    (P ≠ data.period_cycles →
      (∃ i : Fin NRF_PWM_CHANNEL_COUNT, i.val ≠ c ∧ channel_needs_pwm i data = true) →
      pwm_period_check_and_set config data c P = (false, data, []))
    ∧ (((pwm_period_check_and_set config data c P).2.1.period_cycles ≠ data.period_cycles
          ∨ (pwm_period_check_and_set config data c P).2.1.prescaler ≠ data.prescaler
          ∨ (pwm_period_check_and_set config data c P).2.2 ≠ []) →
        ∀ i : Fin NRF_PWM_CHANNEL_COUNT, i.val ≠ c → channel_needs_pwm i data = false)
    ∧ (∀ (fuel : Nat) (hw : nrf_hw) (pulse_cycles flags : Nat) (o : set_cycles_result),
        pwm_nrfx_set_cycles fuel hw config data c P pulse_cycles flags = some o →
        (o.data.period_cycles ≠ data.period_cycles ∨ o.data.prescaler ≠ data.prescaler) →
        ∀ i : Fin NRF_PWM_CHANNEL_COUNT, i.val ≠ c → channel_needs_pwm i data = false) := by
  refine ⟨?_, ?_, ?_⟩
  · intro hP hex
    have ho := (any_other_channel_needs_pwm_iff c data).mpr hex
    simp [pwm_period_check_and_set, hP, ho]
  · intro hch
    rcases pwm_period_check_and_set_cases config data c P with h | h | ⟨ho, _, _⟩
    · rw [h] at hch; simp at hch
    · rw [h] at hch; simp at hch
    · exact (any_other_channel_needs_pwm_false_iff c data).mp ho
  · intro fuel hw D flags o h hch
    exact (any_other_channel_needs_pwm_false_iff c data).mp
      (set_cycles_timing_base_change fuel hw config data c P D flags o h hch)

/-- C5, at a concrete input: channel 0 holds compare value 500 (inverted) under
period 1000; channel 1 asking for period 2000 is refused with nothing
changed. -/
theorem C5_incompatible_period_witness :
    (2000 ≠ data_ch0_driven.period_cycles
      ∧ ∃ i : Fin NRF_PWM_CHANNEL_COUNT, i.val ≠ 1 ∧ channel_needs_pwm i data_ch0_driven = true)
    ∧ pwm_period_check_and_set config_up data_ch0_driven 1 2000
        = (false, data_ch0_driven, []) :=
  ⟨⟨by decide, ⟨0, by decide, by decide⟩⟩,
    (C5_incompatible_period config_up data_ch0_driven 1 2000).1 (by decide)
      ⟨0, by decide, by decide⟩⟩

/-- C10 (the claim fails as stated): on the state left by init, the inverted
request for channel 0 with period 65536 and pulse 1 is genuine PWM; the
resolver picks prescaler 2, the compare value `1 >> 2` is 0, so in the
resulting state neither channel 0 nor any other channel satisfies
`channel_needs_pwm`, and yet the call requests a playback and no stop, and
`stop_requested` stays false. -/
theorem C10_counterexample :
    Option.map
        (fun o => (o.ret, channel_needs_pwm 0 o.data,
          any_other_channel_needs_pwm 0 o.data))
        (pwm_nrfx_set_cycles 0 hw_idle_low config_up data_after_init 0 65536 1 1)
      = some (0, false, false)
    ∧ Option.map (fun o => (o.data.seq_values 0, o.data.stop_requested, o.trace))
        (pwm_nrfx_set_cycles 0 hw_idle_low config_up data_after_init 0 65536 1 1)
      = some (0, false,
          [nrf_pwm_configure 2 NRF_PWM_MODE_UP 16384, nrfx_pwm_simple_playback 1 0]) := by
  refine ⟨?_, ?_⟩
  · decide
  · decide

/-- C10 (amended): for every successful `pwm_nrfx_set_cycles` call, the timer
stop is requested (one `nrfx_pwm_stop` with wait = false, `stop_requested` set
to true, no playback) if and only if the request, after the center-aligned
halving, is a constant level (`pulse == 0` or `pulse >= period`) and, in the
resulting channel state, no other channel satisfies `channel_needs_pwm`;
otherwise exactly one `nrfx_pwm_simple_playback` is issued and no stop. -/
theorem C10_stop_start_decision (fuel : Nat) (hw : nrf_hw) (config : pwm_nrfx_config)
    (data : pwm_nrfx_data) (channel period_cycles pulse_cycles flags : Nat)
    (o : set_cycles_result)
    (h : pwm_nrfx_set_cycles fuel hw config data channel period_cycles pulse_cycles flags
      = some o)
    (hret : o.ret = 0) :
    (((center_aligned_adjust config pulse_cycles = 0
          ∨ center_aligned_adjust config pulse_cycles
              ≥ center_aligned_adjust config period_cycles)
        ∧ any_other_channel_needs_pwm channel o.data = false) →
      o.trace.countP is_stop = 1 ∧ nrfx_pwm_stop false ∈ o.trace
        ∧ o.data.stop_requested = true ∧ o.trace.countP is_playback = 0)
    ∧ (¬ ((center_aligned_adjust config pulse_cycles = 0
          ∨ center_aligned_adjust config pulse_cycles
              ≥ center_aligned_adjust config period_cycles)
        ∧ any_other_channel_needs_pwm channel o.data = false) →
      o.trace.countP is_playback = 1 ∧ nrfx_pwm_simple_playback 1 0 ∈ o.trace
        ∧ o.trace.countP is_stop = 0) := by
  obtain ⟨hc, cv, np, d1, t1, hcl, hcm⟩ :=
    set_cycles_success fuel hw config data channel _ _ flags o h hret
  obtain ⟨d2, t2, hpb, ho⟩ := set_cycles_commit_some _ _ _ _ _ _ _ _ _ _ hcm
  have hnp : np = false ↔ (center_aligned_adjust config pulse_cycles = 0
      ∨ center_aligned_adjust config pulse_cycles
          ≥ center_aligned_adjust config period_cycles) := by
    rcases set_cycles_classify_some _ _ _ _ _ _ _ _ _ hcl with
      ⟨h0, _, hn, _⟩ | ⟨_, h1, _, hn, _⟩ | ⟨h0, h1, hn, _⟩
    · exact ⟨fun _ => Or.inl h0, fun _ => hn⟩
    · exact ⟨fun _ => Or.inr h1, fun _ => hn⟩
    · constructor
      · intro hf; rw [hn] at hf; exact absurd hf (by decide)
      · intro hor; omega
  have ht1 := set_cycles_classify_trace _ _ _ _ _ _ _ _ _ hcl
  have hg := set_cycles_gpio_trace hw ⟨channel, hc⟩
    (center_aligned_adjust config pulse_cycles) ((flags &&& PWM_POLARITY_INVERTED) != 0) np
  have hpre_stop : (t1 ++ set_cycles_gpio hw ⟨channel, hc⟩
      (center_aligned_adjust config pulse_cycles)
      ((flags &&& PWM_POLARITY_INVERTED) != 0) np).countP is_stop = 0 := by
    rcases ht1 with e1 | ⟨p, top, e1⟩ <;> rcases hg with e2 | ⟨pin, v, e2⟩ <;>
      rw [e1, e2] <;> rfl
  have hpre_play : (t1 ++ set_cycles_gpio hw ⟨channel, hc⟩
      (center_aligned_adjust config pulse_cycles)
      ((flags &&& PWM_POLARITY_INVERTED) != 0) np).countP is_playback = 0 := by
    rcases ht1 with e1 | ⟨p, top, e1⟩ <;> rcases hg with e2 | ⟨pin, v, e2⟩ <;>
      rw [e1, e2] <;> rfl
  have htrace : o.trace = (t1 ++ set_cycles_gpio hw ⟨channel, hc⟩
      (center_aligned_adjust config pulse_cycles)
      ((flags &&& PWM_POLARITY_INVERTED) != 0) np) ++ t2 := by rw [ho]
  have hcs : o.trace.countP is_stop = t2.countP is_stop := by
    rw [htrace, List.countP_append, hpre_stop, Nat.zero_add]
  have hcp : o.trace.countP is_playback = t2.countP is_playback := by
    rw [htrace, List.countP_append, hpre_play, Nat.zero_add]
  have hmem : ∀ a, a ∈ t2 → a ∈ o.trace := by
    intro a ha
    rw [htrace]
    exact List.mem_append_right _ ha
  have hdata : o.data = d2 := by rw [ho]
  have hany := set_cycles_playback_any_other _ _ _ _ _ _ _ hpb channel
  rw [← hdata] at hany
  rcases set_cycles_playback_some _ _ _ _ _ _ _ hpb with
    ⟨hn, hoth, hd2, ht2⟩ | ⟨hnot, _, hd2, n, ht2⟩ | ⟨hnot, _, hd2, ht2⟩
  · -- the stop branch
    have hoth1 : any_other_channel_needs_pwm channel o.data = false := by
      rw [hany]
      exact hoth
    constructor
    · intro _
      rw [hcs, hcp, hdata, hd2]
      refine ⟨by rw [ht2]; rfl, ?_, rfl, by rw [ht2]; rfl⟩
      apply hmem
      rw [ht2]
      exact List.mem_singleton.mpr rfl
    · intro hneg
      exact absurd ⟨hnp.mp hn, hoth1⟩ hneg
  · -- the playback branch after a pending stop
    constructor
    · rintro ⟨ha, hb⟩
      rw [hany] at hb
      exact absurd ⟨hnp.mpr ha, hb⟩ hnot
    · intro _
      rw [hcs, hcp]
      refine ⟨?_, ?_, ?_⟩
      · rw [ht2]
        simp [List.countP_append, List.countP_replicate, List.countP_cons, is_playback]
      · apply hmem
        rw [ht2]
        simp
      · rw [ht2]
        simp [List.countP_append, List.countP_replicate, List.countP_cons, is_stop]
  · -- the playback branch with no stop pending
    constructor
    · rintro ⟨ha, hb⟩
      rw [hany] at hb
      exact absurd ⟨hnp.mpr ha, hb⟩ hnot
    · intro _
      rw [hcs, hcp]
      refine ⟨by rw [ht2]; rfl, ?_, by rw [ht2]; rfl⟩
      apply hmem
      rw [ht2]
      exact List.mem_singleton.mpr rfl

/-- C10 (amended), at the scenario of the claim: channel 0 was given period
1000 and pulse 500, then pulse 0 is requested on channel 0 while no other
channel is active: the call returns 0, requests a stop (wait = false), issues
no playback and leaves `stop_requested = true`. -/
theorem C10_stop_start_decision_witness :
    (pwm_nrfx_set_cycles 0 hw_idle_low config_up data_first_pwm 0 1000 0 0
        = some result_pulse_zero
      ∧ result_pulse_zero.ret = 0
      ∧ (center_aligned_adjust config_up 0 = 0
          ∨ center_aligned_adjust config_up 0 ≥ center_aligned_adjust config_up 1000)
      ∧ any_other_channel_needs_pwm 0 result_pulse_zero.data = false)
    ∧ (result_pulse_zero.trace.countP is_stop = 1
      ∧ nrfx_pwm_stop false ∈ result_pulse_zero.trace
      ∧ result_pulse_zero.data.stop_requested = true
      ∧ result_pulse_zero.trace.countP is_playback = 0) :=
  ⟨⟨rfl, by decide, Or.inl (by decide), by decide⟩,
    (C10_stop_start_decision 0 hw_idle_low config_up data_first_pwm 0 1000 0 0
      result_pulse_zero rfl (by decide)).1 ⟨Or.inl (by decide), by decide⟩⟩

/-! ## Shape of a successful channel update -/

/-- The resolver touches no field other than `period_cycles` and
`prescaler`. -/
theorem pwm_period_check_and_set_fields (config : pwm_nrfx_config) (data : pwm_nrfx_data)
    (c P : Nat) :
    (pwm_period_check_and_set config data c P).2.1.seq_values = data.seq_values
    ∧ (pwm_period_check_and_set config data c P).2.1.initially_inverted
        = data.initially_inverted
    ∧ (pwm_period_check_and_set config data c P).2.1.stop_requested
        = data.stop_requested := by
  rcases pwm_period_check_and_set_cases config data c P with h | h | ⟨_, _, p1, _, _, h⟩ <;>
  · rw [h]
    exact ⟨rfl, rfl, rfl⟩

/-- The duty classification touches no field other than `period_cycles` and
`prescaler`. -/
theorem set_cycles_classify_fields (config : pwm_nrfx_config) (data : pwm_nrfx_data)
    (c P D : Nat) (cv : Nat) (np : Bool) (d1 : pwm_nrfx_data) (t1 : List HwAction)
    (h : set_cycles_classify config data c P D = some (cv, np, d1, t1)) :
    d1.seq_values = data.seq_values
    ∧ d1.initially_inverted = data.initially_inverted
    ∧ d1.stop_requested = data.stop_requested := by
  rcases set_cycles_classify_some _ _ _ _ _ _ _ _ _ h with
    ⟨_, _, _, hd, _⟩ | ⟨_, _, _, _, hd, _⟩ | ⟨_, _, _, hr, _⟩
  · rw [hd]; exact ⟨rfl, rfl, rfl⟩
  · rw [hd]; exact ⟨rfl, rfl, rfl⟩
  · have := pwm_period_check_and_set_fields config data c P
    rw [hr] at this
    exact this

/-- A successful call, step by step: the duty classification gives the compare
value, the flag `needs_pwm`, the data `d1` and the calls `t1`; the word is
stored; the stop-or-playback step gives the final data and the calls `t2`; the
GPIO calls come in between. -/
theorem set_cycles_success_steps (fuel : Nat) (hw : nrf_hw) (config : pwm_nrfx_config)
    (data : pwm_nrfx_data) (channel P D flags : Nat) (o : set_cycles_result)
    (h : pwm_nrfx_set_cycles fuel hw config data channel P D flags = some o)
    (hret : o.ret = 0) :
    ∃ (hc : channel < NRF_PWM_CHANNEL_COUNT) (cv : Nat) (np : Bool)
      (d1 : pwm_nrfx_data) (t1 : List HwAction) (t2 : List HwAction),
      set_cycles_classify config data channel (center_aligned_adjust config P)
          (center_aligned_adjust config D) = some (cv, np, d1, t1)
      ∧ set_cycles_playback fuel hw
          (seq_store d1 ⟨channel, hc⟩
            (PWM_NRFX_CH_VALUE cv ((flags &&& PWM_POLARITY_INVERTED) != 0) % 65536))
          channel np = some (o.data, t2)
      ∧ o.trace = t1 ++ set_cycles_gpio hw ⟨channel, hc⟩ (center_aligned_adjust config D)
          ((flags &&& PWM_POLARITY_INVERTED) != 0) np ++ t2 := by
  obtain ⟨hc, cv, np, d1, t1, hcl, hcm⟩ :=
    set_cycles_success fuel hw config data channel _ _ flags o h hret
  obtain ⟨d2, t2, hpb, ho⟩ := set_cycles_commit_some _ _ _ _ _ _ _ _ _ _ hcm
  refine ⟨hc, cv, np, d1, t1, t2, hcl, ?_, ?_⟩
  · rw [ho]; exact hpb
  · rw [ho]

/-- The flag `needs_pwm` is false exactly for a constant-level request. -/
theorem set_cycles_classify_needs_pwm (config : pwm_nrfx_config) (data : pwm_nrfx_data)
    (c P D : Nat) (cv : Nat) (np : Bool) (d1 : pwm_nrfx_data) (t1 : List HwAction)
    (h : set_cycles_classify config data c P D = some (cv, np, d1, t1)) :
    np = false ↔ (D = 0 ∨ D ≥ P) := by
  rcases set_cycles_classify_some _ _ _ _ _ _ _ _ _ h with
    ⟨h0, _, hn, _⟩ | ⟨_, h1, _, hn, _⟩ | ⟨h0, h1, hn, _⟩
  · exact ⟨fun _ => Or.inl h0, fun _ => hn⟩
  · exact ⟨fun _ => Or.inr h1, fun _ => hn⟩
  · constructor
    · intro hf; rw [hn] at hf; exact absurd hf (by decide)
    · intro hor; omega

/-- The calls made before the stop-or-playback step are at most one timer
programming followed by at most one GPIO write. -/
theorem set_cycles_pre_counts (mode : nrf_pwm_mode_t) (t1 g : List HwAction)
    (ht1 : t1 = [] ∨ ∃ p top, t1 = [nrf_pwm_configure p mode top])
    (hg : g = [] ∨ ∃ pin v, g = [nrf_gpio_pin_write pin v]) :
    (t1 ++ g).countP is_stop = 0 ∧ (t1 ++ g).countP is_playback = 0
    ∧ (t1 ++ g).countP is_poll = 0
    ∧ (t1 ++ g).countP is_gpio_write = g.length
    ∧ (t1 ++ g).countP is_configure = t1.length := by
  rcases ht1 with e1 | ⟨p, top, e1⟩ <;> rcases hg with e2 | ⟨pin, v, e2⟩ <;>
    rw [e1, e2] <;> exact ⟨rfl, rfl, rfl, rfl, rfl⟩

/-- C11: in a call that returns 0 and issues a playback while a stop was
pending on entry, the hardware calls end with polls of `nrfx_pwm_is_stopped`
that all answer "not stopped" except the last one, which answers "stopped" and
comes immediately before the single playback; nothing before those polls is a
playback or a poll, and `stop_requested` is false afterwards.  In a call
entered with `stop_requested` false, no poll is made at all. -/
theorem C11_stop_before_restart (fuel : Nat) (hw : nrf_hw) (config : pwm_nrfx_config)
    (data : pwm_nrfx_data) (channel period_cycles pulse_cycles flags : Nat)
    (o : set_cycles_result)
    (h : pwm_nrfx_set_cycles fuel hw config data channel period_cycles pulse_cycles flags
      = some o) :
    (data.stop_requested = true → o.ret = 0 →
      nrfx_pwm_simple_playback 1 0 ∈ o.trace →
      (∃ pre n, o.trace = pre ++ List.replicate n (nrfx_pwm_is_stopped false)
            ++ [nrfx_pwm_is_stopped true, nrfx_pwm_simple_playback 1 0]
          ∧ pre.countP is_playback = 0 ∧ pre.countP is_poll = 0)
        ∧ o.data.stop_requested = false)
    ∧ (data.stop_requested = false → o.trace.countP is_poll = 0) := by
  by_cases hret : o.ret = 0
  · obtain ⟨hc, cv, np, d1, t1, t2, hcl, hpb, htr⟩ :=
      set_cycles_success_steps fuel hw config data channel _ _ flags o h hret
    obtain ⟨_, _, hsr⟩ := set_cycles_classify_fields _ _ _ _ _ _ _ _ _ hcl
    obtain ⟨_, hpp, hpl, _, _⟩ := set_cycles_pre_counts config.count_mode t1 _
      (set_cycles_classify_trace _ _ _ _ _ _ _ _ _ hcl)
      (set_cycles_gpio_trace hw ⟨channel, hc⟩ (center_aligned_adjust config pulse_cycles)
        ((flags &&& PWM_POLARITY_INVERTED) != 0) np)
    rcases set_cycles_playback_some _ _ _ _ _ _ _ hpb with
      ⟨_, _, _, ht2⟩ | ⟨_, hst, hd2, n, ht2⟩ | ⟨_, hst, _, ht2⟩
    · constructor
      · intro _ _ hmem
        exfalso
        have hcnt : o.trace.countP is_playback = 0 := by
          rw [htr, List.countP_append, hpp, ht2]; rfl
        rw [List.countP_eq_zero] at hcnt
        exact hcnt _ hmem rfl
      · intro _
        rw [htr, List.countP_append, hpl, ht2]; rfl
    · have hst1 : data.stop_requested = true := by
        rw [← hsr]; exact hst
      constructor
      · intro _ _ _
        refine ⟨⟨_, n, ?_, hpp, hpl⟩, ?_⟩
        · rw [htr, ht2]
          simp [List.append_assoc]
        · rw [hd2]
      · intro hf
        rw [hf] at hst1
        exact absurd hst1 (by decide)
    · have hst1 : data.stop_requested = false := by
        rw [← hsr]; exact hst
      constructor
      · intro ht
        rw [ht] at hst1
        exact absurd hst1 (by decide)
      · intro _
        rw [htr, List.countP_append, hpl, ht2]; rfl
  · have he := (set_cycles_error_unchanged fuel hw config data channel _ _ flags o h hret).2
    constructor
    · intro _ h0
      exact absurd h0 hret
    · intro _
      rw [he]; rfl

/-- C11, at a concrete input: a stop is pending (pulse 0 was requested on the
only active channel), the peripheral answers "not stopped" twice, and a new
PWM request arrives: the calls are two polls answered false, one answered
true, then the playback. -/
theorem C11_stop_before_restart_witness :
    (pwm_nrfx_set_cycles 5 hw_slow_stop config_up result_pulse_zero.data 0 1000 500 1
        = some result_restart
      ∧ result_pulse_zero.data.stop_requested = true
      ∧ result_restart.ret = 0
      ∧ nrfx_pwm_simple_playback 1 0 ∈ result_restart.trace)
    ∧ ((∃ pre n, result_restart.trace
            = pre ++ List.replicate n (nrfx_pwm_is_stopped false)
              ++ [nrfx_pwm_is_stopped true, nrfx_pwm_simple_playback 1 0]
          ∧ pre.countP is_playback = 0 ∧ pre.countP is_poll = 0)
        ∧ result_restart.data.stop_requested = false) :=
  ⟨⟨rfl, by decide, by decide, by decide⟩,
    (C11_stop_before_restart 5 hw_slow_stop config_up result_pulse_zero.data 0 1000 500 1
      result_restart rfl).1 (by decide) (by decide) (by decide)⟩

/-- C12: whenever the search is reached for period `P` (`P` differs from the
committed period and no other channel needs the peripheral), the resolver
returns true if and only if some prescaler `p` in 0..7 has
`P >> p <= 0x7FFF`; then it commits `period_cycles = P` and the least such `p`
and calls `nrf_pwm_configure` exactly once, with `p`, the configured count mode
and `P >> p`; otherwise it returns false with the driver data unchanged and no
hardware call. -/
theorem C12_prescaler_search_result (config : pwm_nrfx_config) (data : pwm_nrfx_data)
    (c P : Nat) (hP : P ≠ data.period_cycles)
    (hother : any_other_channel_needs_pwm c data = false) :
    ((pwm_period_check_and_set config data c P).1 = true
      ↔ ∃ p, p ≤ PWM_PRESCALER_PRESCALER_Msk ∧ P >>> p ≤ PWM_COUNTERTOP_COUNTERTOP_Msk)
    ∧ ((∃ p, p ≤ PWM_PRESCALER_PRESCALER_Msk ∧ P >>> p ≤ PWM_COUNTERTOP_COUNTERTOP_Msk) →
        ∃ p, p ≤ PWM_PRESCALER_PRESCALER_Msk
          ∧ P >>> p ≤ PWM_COUNTERTOP_COUNTERTOP_Msk
          ∧ (∀ q, q < p → ¬ (P >>> q ≤ PWM_COUNTERTOP_COUNTERTOP_Msk))
          ∧ pwm_period_check_and_set config data c P
              = (true, { data with period_cycles := P, prescaler := p },
                  [nrf_pwm_configure p config.count_mode (P >>> p)]))
    ∧ ((¬ ∃ p, p ≤ PWM_PRESCALER_PRESCALER_Msk ∧ P >>> p ≤ PWM_COUNTERTOP_COUNTERTOP_Msk) →
        pwm_period_check_and_set config data c P = (false, data, [])) := by
  rcases pwm_period_check_and_set_search config data c P hP hother with
    ⟨p1, h1, h2, h3, h4⟩ | ⟨hn, hf⟩
  · refine ⟨?_, ?_, ?_⟩
    · rw [h4]
      exact ⟨fun _ => ⟨p1, h1, h2⟩, fun _ => rfl⟩
    · intro _
      exact ⟨p1, h1, h2, h3, h4⟩
    · intro hne
      exact absurd ⟨p1, h1, h2⟩ hne
  · have hne : ¬ ∃ p, p ≤ PWM_PRESCALER_PRESCALER_Msk
        ∧ P >>> p ≤ PWM_COUNTERTOP_COUNTERTOP_Msk := by
      rintro ⟨p, hp1, hp2⟩
      exact hn p hp1 hp2
    refine ⟨?_, ?_, ?_⟩
    · rw [hf]
      constructor
      · intro hft
        exact absurd hft (by simp)
      · intro hex
        exact absurd hex hne
    · intro hex
      exact absurd hex hne
    · intro _
      exact hf

/-- C12, at a concrete input: from the state left by init the period 100000
reaches the search; prescaler 2 fits, so the resolver returns true. -/
theorem C12_prescaler_search_result_witness :
    (100000 ≠ data_after_init.period_cycles
      ∧ any_other_channel_needs_pwm 0 data_after_init = false)
    ∧ ((pwm_period_check_and_set config_up data_after_init 0 100000).1 = true
      ↔ ∃ p, p ≤ PWM_PRESCALER_PRESCALER_Msk
          ∧ 100000 >>> p ≤ PWM_COUNTERTOP_COUNTERTOP_Msk) :=
  ⟨⟨by decide, by decide⟩,
    (C12_prescaler_search_result config_up data_after_init 0 100000 (by decide)
      (by decide)).1⟩

/-- The driver data after a successful call, field by field, in terms of the
data `d1` and the compare value the duty classification gave. -/
theorem set_cycles_success_data (fuel : Nat) (hw : nrf_hw) (config : pwm_nrfx_config)
    (data : pwm_nrfx_data) (channel P D flags : Nat) (o : set_cycles_result)
    (h : pwm_nrfx_set_cycles fuel hw config data channel P D flags = some o)
    (hret : o.ret = 0) :
    ∃ (hc : channel < NRF_PWM_CHANNEL_COUNT) (cv : Nat) (np : Bool)
      (d1 : pwm_nrfx_data) (t1 : List HwAction),
      set_cycles_classify config data channel (center_aligned_adjust config P)
          (center_aligned_adjust config D) = some (cv, np, d1, t1)
      ∧ o.data.period_cycles = d1.period_cycles
      ∧ o.data.prescaler = d1.prescaler
      ∧ o.data.seq_values = Function.update data.seq_values ⟨channel, hc⟩
          (PWM_NRFX_CH_VALUE cv ((flags &&& PWM_POLARITY_INVERTED) != 0) % 65536)
      ∧ o.data.initially_inverted = data.initially_inverted := by
  obtain ⟨hc, cv, np, d1, t1, t2, hcl, hpb, _⟩ :=
    set_cycles_success_steps fuel hw config data channel _ _ flags o h hret
  obtain ⟨hp, hq, hs, hi⟩ := set_cycles_playback_fields _ _ _ _ _ _ _ hpb
  obtain ⟨hs1, hi1, _⟩ := set_cycles_classify_fields _ _ _ _ _ _ _ _ _ hcl
  refine ⟨hc, cv, np, d1, t1, hcl, hp, hq, ?_, ?_⟩
  · rw [hs, ← hs1]; rfl
  · rw [hi, ← hi1]; rfl

/-- C13 (evaluation of the code where the claim fails): on the state left by
init, the non-inverted request "channel 0, period 1000, pulse 0" returns 0 and
stores the word `0x7FFF` for channel 0: its compare field is `0x7FFF`, the
always-active sentinel, not 0.  The stored word is the codec's encoding of
compare value 0 with polarity "not inverted", and the inverted request stores
the word 0. -/
theorem C13_zero_pulse_stores_sentinel :
    Option.map (fun o => (o.ret, o.data.seq_values 0, o.data.seq_values 0 &&& 0x7FFF))
        (pwm_nrfx_set_cycles 0 hw_idle_low config_up data_after_init 0 1000 0 0)
      = some (0, 0x7FFF, 0x7FFF)
    ∧ PWM_NRFX_CH_VALUE 0 false = 0x7FFF
    ∧ Option.map (fun o => (o.ret, o.data.seq_values 0, o.data.seq_values 0 &&& 0x7FFF))
        (pwm_nrfx_set_cycles 0 hw_idle_low config_up data_after_init 0 1000 0 1)
      = some (0, 0, 0) := by
  refine ⟨?_, ?_, ?_⟩
  · decide
  · decide
  · decide

/-- The stop-or-playback step makes exactly one stop or playback call, and
neither programs the timer nor writes a pin. -/
theorem set_cycles_playback_counts (fuel : Nat) (hw : nrf_hw) (data : pwm_nrfx_data)
    (c : Nat) (np : Bool) (d2 : pwm_nrfx_data) (t2 : List HwAction)
    (h : set_cycles_playback fuel hw data c np = some (d2, t2)) :
    t2.countP is_gpio_write = 0 ∧ t2.countP is_configure = 0
    ∧ t2.countP is_stop + t2.countP is_playback = 1 := by
  rcases set_cycles_playback_some _ _ _ _ _ _ _ h with
    ⟨_, _, _, ht2⟩ | ⟨_, _, _, n, ht2⟩ | ⟨_, _, _, ht2⟩
  · rw [ht2]; exact ⟨rfl, rfl, rfl⟩
  · rw [ht2]
    refine ⟨?_, ?_, ?_⟩
    · simp [List.countP_append, List.countP_replicate, List.countP_cons, is_gpio_write]
    · simp [List.countP_append, List.countP_replicate, List.countP_cons, is_configure]
    · simp [List.countP_append, List.countP_replicate, List.countP_cons, is_stop,
        is_playback]
  · rw [ht2]; exact ⟨rfl, rfl, rfl⟩

/-- The GPIO step of a constant-level request on a connected pin writes the
level `(pulse == 0 ? 0 : 1) XOR inverted` to that pin. -/
theorem set_cycles_gpio_connected (hw : nrf_hw) (ch : Fin NRF_PWM_CHANNEL_COUNT)
    (D : Nat) (inv : Bool) (hconn : (channel_psel_get hw ch).1 = true) :
    set_cycles_gpio hw ch D inv false
      = [nrf_gpio_pin_write (hw.psel_out ch)
          ((if D = 0 then 0 else 1) ^^^ (if inv = true then 1 else 0))] := by
  unfold set_cycles_gpio
  have hpsel : (channel_psel_get hw ch).2 = hw.psel_out ch := rfl
  cases inv <;> by_cases hD : D = 0 <;> simp [hconn, hpsel, hD]

/-- The GPIO step does nothing for a genuine PWM request and nothing for a
channel without a connected pin. -/
theorem set_cycles_gpio_none (hw : nrf_hw) (ch : Fin NRF_PWM_CHANNEL_COUNT)
    (D : Nat) (inv np : Bool)
    (hno : np = true ∨ (channel_psel_get hw ch).1 = false) :
    set_cycles_gpio hw ch D inv np = [] := by
  unfold set_cycles_gpio
  rcases hno with h | h
  · simp [h]
  · simp [h]

/-- C14: for every call that returns 0, on a channel `ch`: if the pin of the
channel is connected and the request, after the center-aligned halving, is a
constant level (`pulse == 0` or `pulse >= period`), the first hardware call is
`nrf_gpio_pin_write` on that channel's pin with level
`(pulse == 0 ? 0 : 1) XOR inverted`, it is the only GPIO write, and the single
stop or playback call comes after it; if the request is genuine PWM or the
pin is not connected, no GPIO write is made. -/
theorem C14_static_gpio_level (fuel : Nat) (hw : nrf_hw) (config : pwm_nrfx_config)
    (data : pwm_nrfx_data) (ch : Fin NRF_PWM_CHANNEL_COUNT)
    (period_cycles pulse_cycles flags : Nat) (o : set_cycles_result)
    (h : pwm_nrfx_set_cycles fuel hw config data ch.val period_cycles pulse_cycles flags
      = some o)
    (hret : o.ret = 0) :
    ((channel_psel_get hw ch).1 = true →
      (center_aligned_adjust config pulse_cycles = 0
        ∨ center_aligned_adjust config pulse_cycles
            ≥ center_aligned_adjust config period_cycles) →
      o.trace.countP is_gpio_write = 1
      ∧ ∃ t2, o.trace
          = nrf_gpio_pin_write (hw.psel_out ch)
              ((if center_aligned_adjust config pulse_cycles = 0 then 0 else 1)
                ^^^ (if ((flags &&& PWM_POLARITY_INVERTED) != 0) = true then 1 else 0))
            :: t2
        ∧ t2.countP is_gpio_write = 0
        ∧ t2.countP is_stop + t2.countP is_playback = 1)
    ∧ (((channel_psel_get hw ch).1 = false
        ∨ (0 < center_aligned_adjust config pulse_cycles
            ∧ center_aligned_adjust config pulse_cycles
                < center_aligned_adjust config period_cycles)) →
      o.trace.countP is_gpio_write = 0) := by
  obtain ⟨hc, cv, np, d1, t1, t2, hcl, hpb, htr⟩ :=
    set_cycles_success_steps fuel hw config data ch.val _ _ flags o h hret
  obtain ⟨hg2, _, hsp⟩ := set_cycles_playback_counts _ _ _ _ _ _ _ hpb
  have hnp := set_cycles_classify_needs_pwm _ _ _ _ _ _ _ _ _ hcl
  have hch : (⟨ch.val, hc⟩ : Fin NRF_PWM_CHANNEL_COUNT) = ch := rfl
  rw [hch] at htr
  constructor
  · intro hconn hconst
    have hnpf : np = false := hnp.mpr hconst
    have ht1 : t1 = [] := by
      rcases set_cycles_classify_some _ _ _ _ _ _ _ _ _ hcl with
        ⟨_, _, _, _, ht⟩ | ⟨_, _, _, _, _, ht⟩ | ⟨_, _, hn, _⟩
      · exact ht
      · exact ht
      · rw [hnpf] at hn; exact absurd hn (by decide)
    rw [hnpf, set_cycles_gpio_connected hw ch _ _ hconn, ht1] at htr
    constructor
    · rw [htr]
      simp only [List.nil_append, List.singleton_append, List.countP_cons, hg2]
      rfl
    · exact ⟨t2, htr, hg2, hsp⟩
  · intro hno
    have hno1 : np = true ∨ (channel_psel_get hw ch).1 = false := by
      rcases hno with hd | ⟨h0, hlt⟩
      · exact Or.inr hd
      · left
        cases hnpv : np
        · have := hnp.mp hnpv
          omega
        · rfl
    rw [set_cycles_gpio_none hw ch _ _ np hno1] at htr
    rw [htr]
    have ht1c : t1.countP is_gpio_write = 0 := by
      rcases set_cycles_classify_trace _ _ _ _ _ _ _ _ _ hcl with e | ⟨p, top, e⟩ <;>
        rw [e] <;> rfl
    simp only [List.append_nil, List.countP_append, ht1c, hg2]

/-- C14, at a concrete input: after the first PWM request, pulse 0 on channel 0
(pin 13, connected, not inverted) writes level 0 to pin 13 and then requests
the stop. -/
theorem C14_static_gpio_level_witness :
    (pwm_nrfx_set_cycles 0 hw_idle_low config_up data_first_pwm (0 : Fin 4).val 1000 0 0
        = some result_pulse_zero
      ∧ result_pulse_zero.ret = 0
      ∧ (channel_psel_get hw_idle_low 0).1 = true
      ∧ center_aligned_adjust config_up 0 = 0)
    ∧ (result_pulse_zero.trace.countP is_gpio_write = 1
      ∧ ∃ t2, result_pulse_zero.trace
          = nrf_gpio_pin_write (hw_idle_low.psel_out 0)
              ((if center_aligned_adjust config_up 0 = 0 then 0 else 1)
                ^^^ (if ((0 &&& PWM_POLARITY_INVERTED) != 0) = true then 1 else 0))
            :: t2
        ∧ t2.countP is_gpio_write = 0
        ∧ t2.countP is_stop + t2.countP is_playback = 1) :=
  ⟨⟨rfl, by decide, by decide, by decide⟩,
    (C14_static_gpio_level 0 hw_idle_low config_up data_first_pwm 0 1000 0 0
      result_pulse_zero rfl (by decide)).1 (by decide) (Or.inl (by decide))⟩

/-- C20: for every call of `pwm_nrfx_set_cycles` on channel `c` that returns,
with 0 or with an error, the word of every channel other than `c` and
`initially_inverted` are unchanged; if the request, after the center-aligned
halving, is a constant level (`pulse == 0` or `pulse >= period`), then
`period_cycles` and `prescaler` are unchanged as well and `nrf_pwm_configure` is
not called. -/
theorem C20_channel_frame (fuel : Nat) (hw : nrf_hw) (config : pwm_nrfx_config)
    (data : pwm_nrfx_data) (c period_cycles pulse_cycles flags : Nat)
    (o : set_cycles_result)
    (h : pwm_nrfx_set_cycles fuel hw config data c period_cycles pulse_cycles flags
      = some o) :
    (∀ i : Fin NRF_PWM_CHANNEL_COUNT, i.val ≠ c → o.data.seq_values i = data.seq_values i)
    ∧ o.data.initially_inverted = data.initially_inverted
    ∧ ((center_aligned_adjust config pulse_cycles = 0
          ∨ center_aligned_adjust config pulse_cycles
              ≥ center_aligned_adjust config period_cycles) →
        o.data.period_cycles = data.period_cycles ∧ o.data.prescaler = data.prescaler
        ∧ o.trace.countP is_configure = 0) := by
  by_cases hret : o.ret = 0
  · obtain ⟨hc, cv, np, d1, t1, hcl, hp, hq, hs, hi⟩ :=
      set_cycles_success_data fuel hw config data c _ _ flags o h hret
    obtain ⟨_, _, _, _, _, t2, hcl1, hpb, htr⟩ :=
      set_cycles_success_steps fuel hw config data c _ _ flags o h hret
    rw [hcl] at hcl1
    simp only [Option.some.injEq, Prod.mk.injEq] at hcl1
    obtain ⟨_, hnp1, _, ht11⟩ := hcl1
    refine ⟨?_, hi, ?_⟩
    · intro i hi1
      rw [hs]
      apply Function.update_noteq
      intro he
      apply hi1
      rw [he]
    · intro hconst
      rcases set_cycles_classify_some _ _ _ _ _ _ _ _ _ hcl with
        ⟨_, _, _, hd, ht⟩ | ⟨_, _, _, _, hd, ht⟩ | ⟨h0, hlt, _⟩
      · refine ⟨by rw [hp, hd], by rw [hq, hd], ?_⟩
        obtain ⟨_, hcf, _⟩ := set_cycles_playback_counts _ _ _ _ _ _ _ hpb
        rw [htr, ← ht11, ht]
        rcases set_cycles_gpio_trace hw ⟨c, hc⟩ (center_aligned_adjust config pulse_cycles)
          ((flags &&& PWM_POLARITY_INVERTED) != 0) np with e | ⟨pin, v, e⟩
        · rw [← hnp1, e]; simpa using hcf
        · rw [← hnp1, e]; simpa [List.countP_cons, is_configure] using hcf
      · refine ⟨by rw [hp, hd], by rw [hq, hd], ?_⟩
        obtain ⟨_, hcf, _⟩ := set_cycles_playback_counts _ _ _ _ _ _ _ hpb
        rw [htr, ← ht11, ht]
        rcases set_cycles_gpio_trace hw ⟨c, hc⟩ (center_aligned_adjust config pulse_cycles)
          ((flags &&& PWM_POLARITY_INVERTED) != 0) np with e | ⟨pin, v, e⟩
        · rw [← hnp1, e]; simpa using hcf
        · rw [← hnp1, e]; simpa [List.countP_cons, is_configure] using hcf
      · omega
  · obtain ⟨hd, ht⟩ := set_cycles_error_unchanged fuel hw config data c _ _ flags o h hret
    rw [hd, ht]
    exact ⟨fun _ _ => rfl, rfl, fun _ => ⟨rfl, rfl, rfl⟩⟩

/-- C20, at a concrete input: pulse 0 on channel 0 after the first PWM request
leaves the words of channels 1..3, `initially_inverted` and the timing base as
they were and does not program the timer. -/
theorem C20_channel_frame_witness :
    pwm_nrfx_set_cycles 0 hw_idle_low config_up data_first_pwm 0 1000 0 0
        = some result_pulse_zero
    ∧ ((∀ i : Fin NRF_PWM_CHANNEL_COUNT, i.val ≠ 0 →
          result_pulse_zero.data.seq_values i = data_first_pwm.seq_values i)
      ∧ result_pulse_zero.data.initially_inverted = data_first_pwm.initially_inverted
      ∧ ((center_aligned_adjust config_up 0 = 0
            ∨ center_aligned_adjust config_up 0 ≥ center_aligned_adjust config_up 1000) →
          result_pulse_zero.data.period_cycles = data_first_pwm.period_cycles
          ∧ result_pulse_zero.data.prescaler = data_first_pwm.prescaler
          ∧ result_pulse_zero.trace.countP is_configure = 0)) :=
  ⟨rfl, C20_channel_frame 0 hw_idle_low config_up data_first_pwm 0 1000 0 0
    result_pulse_zero rfl⟩

/-! ## Count mode -/

/-- The search loop uses the count mode only as an argument of
`nrf_pwm_configure`. -/
theorem pwm_period_search_mode (c1 c2 : pwm_nrfx_config) (data : pwm_nrfx_data)
    (P : Nat) :
    ∀ (n p c : Nat), pwm_period_search c2 data P n p c
      = ((pwm_period_search c1 data P n p c).1, (pwm_period_search c1 data P n p c).2.1,
          (pwm_period_search c1 data P n p c).2.2.map (retag_mode c2.count_mode)) := by
  intro n
  induction n with
  | zero =>
    intro p c
    rfl
  | succ n ih =>
    intro p c
    rw [pwm_period_search, pwm_period_search.eq_def c1 data P (n + 1)]
    simp only
    by_cases hc : c ≤ PWM_COUNTERTOP_COUNTERTOP_Msk
    · rw [if_pos hc, if_pos hc]
      rfl
    · rw [if_neg hc, if_neg hc]
      by_cases hp7 : (p + 1) % 256 ≤ PWM_PRESCALER_PRESCALER_Msk
      · rw [if_pos hp7, if_pos hp7]
        exact ih _ _
      · rw [if_neg hp7, if_neg hp7]
        rfl

/-- The resolver uses the count mode only as an argument of
`nrf_pwm_configure`. -/
theorem pwm_period_check_and_set_mode (c1 c2 : pwm_nrfx_config) (data : pwm_nrfx_data)
    (c P : Nat) :
    pwm_period_check_and_set c2 data c P
      = ((pwm_period_check_and_set c1 data c P).1,
          (pwm_period_check_and_set c1 data c P).2.1,
          (pwm_period_check_and_set c1 data c P).2.2.map (retag_mode c2.count_mode)) := by
  unfold pwm_period_check_and_set
  by_cases hP : P = data.period_cycles
  · rw [if_pos hP, if_pos hP]; rfl
  · rw [if_neg hP, if_neg hP]
    by_cases ho : any_other_channel_needs_pwm c data = true
    · rw [if_pos ho, if_pos ho]; rfl
    · rw [if_neg ho, if_neg ho]
      exact pwm_period_search_mode c1 c2 data P _ _ _

/-- The duty classification uses the count mode only as an argument of
`nrf_pwm_configure`. -/
theorem set_cycles_classify_mode (c1 c2 : pwm_nrfx_config) (data : pwm_nrfx_data)
    (c P D : Nat) :
    set_cycles_classify c2 data c P D
      = (set_cycles_classify c1 data c P D).map
          (fun r => (r.1, r.2.1, r.2.2.1, r.2.2.2.map (retag_mode c2.count_mode))) := by
  unfold set_cycles_classify
  by_cases h0 : D = 0
  · rw [if_pos h0, if_pos h0]; rfl
  · rw [if_neg h0, if_neg h0]
    by_cases h1 : D ≥ P
    · rw [if_pos h1, if_pos h1]; rfl
    · rw [if_neg h1, if_neg h1]
      rw [pwm_period_check_and_set_mode c1 c2 data c P]
      rcases pwm_period_check_and_set c1 data c P with ⟨b, d1, t1⟩
      cases b <;> rfl

/-- The stop-or-playback calls contain no timer programming. -/
theorem set_cycles_playback_retag (fuel : Nat) (hw : nrf_hw) (data : pwm_nrfx_data)
    (c : Nat) (np : Bool) (d2 : pwm_nrfx_data) (t2 : List HwAction)
    (h : set_cycles_playback fuel hw data c np = some (d2, t2)) (mode : nrf_pwm_mode_t) :
    t2.map (retag_mode mode) = t2 := by
  rcases set_cycles_playback_some _ _ _ _ _ _ _ h with
    ⟨_, _, _, ht2⟩ | ⟨_, _, _, n, ht2⟩ | ⟨_, _, _, ht2⟩
  · rw [ht2]; rfl
  · rw [ht2]
    simp [retag_mode]
  · rw [ht2]; rfl

/-- The GPIO calls contain no timer programming. -/
theorem set_cycles_gpio_retag (hw : nrf_hw) (ch : Fin NRF_PWM_CHANNEL_COUNT)
    (D : Nat) (inv np : Bool) (mode : nrf_pwm_mode_t) :
    (set_cycles_gpio hw ch D inv np).map (retag_mode mode)
      = set_cycles_gpio hw ch D inv np := by
  rcases set_cycles_gpio_trace hw ch D inv np with e | ⟨pin, v, e⟩ <;> rw [e] <;> rfl

/-- The commit step does not look at the count mode. -/
theorem set_cycles_commit_retag (fuel : Nat) (hw : nrf_hw) (data : pwm_nrfx_data)
    (ch : Fin NRF_PWM_CHANNEL_COUNT) (D : Nat) (inv : Bool) (cv : Nat) (np : Bool)
    (t0 : List HwAction) (mode : nrf_pwm_mode_t) :
    set_cycles_commit fuel hw data ch D inv cv np (t0.map (retag_mode mode))
      = (set_cycles_commit fuel hw data ch D inv cv np t0).map (retag_result mode) := by
  unfold set_cycles_commit
  simp only
  rcases hp : set_cycles_playback fuel hw
      (seq_store data ch (PWM_NRFX_CH_VALUE cv inv % 65536)) ch.val np with _ | ⟨d2, t2⟩
  · have hp1 : set_cycles_playback fuel hw
        { data with seq_values :=
            Function.update data.seq_values ch (PWM_NRFX_CH_VALUE cv inv % 65536) }
        ch.val np = none := hp
    rw [hp1]; rfl
  · have hp1 : set_cycles_playback fuel hw
        { data with seq_values :=
            Function.update data.seq_values ch (PWM_NRFX_CH_VALUE cv inv % 65536) }
        ch.val np = some (d2, t2) := hp
    rw [hp1]
    simp only [Option.map_some', retag_result, List.map_append,
      set_cycles_playback_retag _ _ _ _ _ _ _ hp mode, set_cycles_gpio_retag]

/-- Two calls on devices that differ in the count mode, given cycle counts that
are the same after the center-aligned adjustment, differ only in the count
mode passed to `nrf_pwm_configure`. -/
theorem set_cycles_mode (fuel : Nat) (hw : nrf_hw) (c1 c2 : pwm_nrfx_config)
    (data : pwm_nrfx_data) (channel P1 D1 P2 D2 flags : Nat)
    (hP : center_aligned_adjust c2 P2 = center_aligned_adjust c1 P1)
    (hD : center_aligned_adjust c2 D2 = center_aligned_adjust c1 D1) :
    pwm_nrfx_set_cycles fuel hw c2 data channel P2 D2 flags
      = (pwm_nrfx_set_cycles fuel hw c1 data channel P1 D1 flags).map
          (retag_result c2.count_mode) := by
  unfold pwm_nrfx_set_cycles
  simp only
  by_cases hc : channel ≥ NRF_PWM_CHANNEL_COUNT
  · rw [dif_pos hc, dif_pos hc]; rfl
  · rw [dif_neg hc, dif_neg hc, hP, hD,
      set_cycles_classify_mode c1 c2 data channel]
    rcases set_cycles_classify c1 data channel (center_aligned_adjust c1 P1)
        (center_aligned_adjust c1 D1) with _ | ⟨cv, np, d1, t1⟩
    · rfl
    · exact set_cycles_commit_retag fuel hw d1 _ _ _ cv np t1 c2.count_mode

/-- C15: a call of `pwm_nrfx_set_cycles` with `(P, D)` on a device in
`NRF_PWM_MODE_UP_AND_DOWN` gives what the call with `(P / 2, D / 2)` gives on
the same device in `NRF_PWM_MODE_UP`: the same return value (or the same
failure to return), the same driver data and the same hardware calls, with the
same prescaler and countertop in a timer programming, whose count mode
argument alone differs; in up mode the cycle counts are used as given. -/
theorem C15_center_aligned_halving (fuel : Nat) (hw : nrf_hw) (pinctrl : Bool)
    (data : pwm_nrfx_data) (channel P D flags : Nat) :
    pwm_nrfx_set_cycles fuel hw ⟨NRF_PWM_MODE_UP_AND_DOWN, pinctrl⟩ data channel P D flags
      = (pwm_nrfx_set_cycles fuel hw ⟨NRF_PWM_MODE_UP, pinctrl⟩ data channel (P / 2) (D / 2)
          flags).map (retag_result NRF_PWM_MODE_UP_AND_DOWN)
    ∧ (∀ x, center_aligned_adjust ⟨NRF_PWM_MODE_UP, pinctrl⟩ x = x)
    ∧ (∀ x, center_aligned_adjust ⟨NRF_PWM_MODE_UP_AND_DOWN, pinctrl⟩ x = x / 2) := by
  refine ⟨?_, fun _ => rfl, fun _ => rfl⟩
  exact set_cycles_mode fuel hw ⟨NRF_PWM_MODE_UP, pinctrl⟩
    ⟨NRF_PWM_MODE_UP_AND_DOWN, pinctrl⟩ data channel (P / 2) (D / 2) P D flags rfl rfl

/-! ## Lifecycle -/

/-- C16 (evaluation of the code where the claim fails): `pwm_nrfx_init` on a
board whose four pins are connected and read low returns 0 and infers "not
inverted" for every channel, but seeds every channel with the word `0x7FFF`:
the compare field is `0x7FFF`, the always-active sentinel, not 0.  No channel
needs the peripheral after init. -/
theorem C16_init_seeds_sentinel :
    (pwm_nrfx_init hw_idle_low config_up pwm_nrfx_data_zero).1 = 0
    ∧ data_after_init.initially_inverted = 0
    ∧ (∀ i : Fin NRF_PWM_CHANNEL_COUNT,
        (channel_psel_get hw_idle_low i).1 = true
        ∧ hw_idle_low.gpio_out (channel_psel_get hw_idle_low i).2 = 0
        ∧ data_after_init.seq_values i = 0x7FFF
        ∧ data_after_init.seq_values i &&& 0x7FFF = 0x7FFF
        ∧ channel_needs_pwm i data_after_init = false) := by
  refine ⟨?_, ?_, ?_⟩
  · decide
  · decide
  · decide

/-- The word stored for a constant level has compare field 0 or 0x7FFF. -/
theorem constant_word_not_driven (cv : Nat) (inv : Bool)
    (hcv : cv = 0 ∨ cv = PWM_NRFX_CH_COMPARE_MASK) :
    (PWM_NRFX_CH_VALUE cv inv % 65536) &&& PWM_NRFX_CH_COMPARE_MASK = 0
    ∨ (PWM_NRFX_CH_VALUE cv inv % 65536) &&& PWM_NRFX_CH_COMPARE_MASK
        = PWM_NRFX_CH_COMPARE_MASK := by
  rcases hcv with h | h <;> cases inv <;> rw [h] <;> decide

/-- No channel needs the peripheral when every word is a seed of init. -/
theorem init_seq_values_not_driven (data : pwm_nrfx_data) (v : Nat)
    (i : Fin NRF_PWM_CHANNEL_COUNT) :
    channel_needs_pwm i { data with seq_values := init_seq_values v } = false := by
  rw [channel_needs_pwm_eq]
  rcases constant_word_not_driven 0 ((v &&& BIT i.val) != 0) (Or.inl rfl) with h | h
  · have h1 : init_seq_values v i &&& PWM_NRFX_CH_COMPARE_MASK = 0 := h
    simp only [h1]
    rfl
  · have h1 : init_seq_values v i &&& PWM_NRFX_CH_COMPARE_MASK
        = PWM_NRFX_CH_COMPARE_MASK := h
    simp only [h1]
    simp

/-- What `pwm_nrfx_init` leaves: the data untouched (pin configuration
failed), or every word a seed; the timing base and `stop_requested` are not
touched, and only `pinctrl_apply_state` and `nrfx_pwm_init` are called. -/
theorem pwm_nrfx_init_data (hw : nrf_hw) (config : pwm_nrfx_config) (data : pwm_nrfx_data) :
    ((pwm_nrfx_init hw config data).2.1 = data
      ∨ ∃ v, (pwm_nrfx_init hw config data).2.1
          = { data with initially_inverted := v, seq_values := init_seq_values v })
    ∧ (pwm_nrfx_init hw config data).2.2.countP is_configure = 0 := by
  unfold pwm_nrfx_init
  by_cases h1 : (config.CONFIG_PINCTRL && decide (hw.pinctrl_ret < 0)) = true
  · rw [if_pos h1]
    exact ⟨Or.inl rfl, rfl⟩
  · rw [if_neg h1]
    cases hp : config.CONFIG_PINCTRL <;> cases hok : hw.nrfx_pwm_init_ok
    all_goals
      simp only [Bool.false_eq_true, if_false, if_true]
      refine ⟨Or.inr ⟨_, rfl⟩, rfl⟩

/-! ## Invariants of the reachable driver data -/

/-- A resolver that returns true has committed the requested period, either
because it was committed already or with a prescaler in range under which the
period fits the countertop register. -/
theorem pwm_period_check_and_set_true (config : pwm_nrfx_config) (data : pwm_nrfx_data)
    (c P : Nat) (d1 : pwm_nrfx_data) (t1 : List HwAction)
    (h : pwm_period_check_and_set config data c P = (true, d1, t1)) :
    d1.period_cycles = P
    ∧ ((P = data.period_cycles ∧ d1.prescaler = data.prescaler ∧ t1 = [])
      ∨ (d1.prescaler ≤ PWM_PRESCALER_PRESCALER_Msk
          ∧ P >>> d1.prescaler ≤ PWM_COUNTERTOP_COUNTERTOP_Msk
          ∧ t1 = [nrf_pwm_configure d1.prescaler config.count_mode (P >>> d1.prescaler)])) := by
  by_cases hP : P = data.period_cycles
  · have he : pwm_period_check_and_set config data c P = (true, data, []) := by
      simp [pwm_period_check_and_set, hP]
    rw [he] at h
    simp only [Prod.mk.injEq, true_and] at h
    rw [← h.1, ← h.2]
    exact ⟨hP.symm, Or.inl ⟨hP, rfl, rfl⟩⟩
  · by_cases ho : any_other_channel_needs_pwm c data = true
    · have he : pwm_period_check_and_set config data c P = (false, data, []) := by
        simp [pwm_period_check_and_set, hP, ho]
      rw [he] at h
      simp at h
    · have ho1 : any_other_channel_needs_pwm c data = false := by simpa using ho
      rcases pwm_period_check_and_set_search config data c P hP ho1 with
        ⟨p1, h1, h2, _, h4⟩ | ⟨_, h2⟩
      · rw [h4] at h
        simp only [Prod.mk.injEq, true_and] at h
        rw [← h.1, ← h.2]
        exact ⟨rfl, Or.inr ⟨h1, h2, rfl⟩⟩
      · rw [h2] at h
        simp at h

/-- The timing base stays in range over a call of `pwm_nrfx_set_cycles`, and
every countertop and prescaler the call passes to `nrf_pwm_configure` is in
range. -/
theorem set_cycles_timing_base (fuel : Nat) (hw : nrf_hw) (config : pwm_nrfx_config)
    (data : pwm_nrfx_data) (channel P D flags : Nat) (o : set_cycles_result)
    (h : pwm_nrfx_set_cycles fuel hw config data channel P D flags = some o) :
    ((data.prescaler ≤ PWM_PRESCALER_PRESCALER_Msk
        ∧ data.period_cycles >>> data.prescaler ≤ PWM_COUNTERTOP_COUNTERTOP_Msk) →
      o.data.prescaler ≤ PWM_PRESCALER_PRESCALER_Msk
        ∧ o.data.period_cycles >>> o.data.prescaler ≤ PWM_COUNTERTOP_COUNTERTOP_Msk)
    ∧ (∀ p m top, nrf_pwm_configure p m top ∈ o.trace →
        p ≤ PWM_PRESCALER_PRESCALER_Msk ∧ top ≤ PWM_COUNTERTOP_COUNTERTOP_Msk) := by
  by_cases hret : o.ret = 0
  · obtain ⟨hc, cv, np, d1, t1, t2, hcl, hpb, htr⟩ :=
      set_cycles_success_steps fuel hw config data channel _ _ flags o h hret
    obtain ⟨hp, hq, _, _⟩ := set_cycles_playback_fields _ _ _ _ _ _ _ hpb
    have hp1 : o.data.period_cycles = d1.period_cycles := hp
    have hq1 : o.data.prescaler = d1.prescaler := hq
    obtain ⟨_, hcf2, _⟩ := set_cycles_playback_counts _ _ _ _ _ _ _ hpb
    have hmem : ∀ p m top, nrf_pwm_configure p m top ∈ o.trace →
        nrf_pwm_configure p m top ∈ t1 := by
      intro p m top hm
      rw [htr] at hm
      rcases List.mem_append.mp hm with hm1 | hm2
      · rcases List.mem_append.mp hm1 with hm3 | hm4
        · exact hm3
        · exfalso
          rcases set_cycles_gpio_trace hw ⟨channel, hc⟩
            (center_aligned_adjust config D) ((flags &&& PWM_POLARITY_INVERTED) != 0) np
            with e | ⟨pin, v, e⟩
          · rw [e] at hm4; simp at hm4
          · rw [e] at hm4; simp at hm4
      · exfalso
        rw [List.countP_eq_zero] at hcf2
        exact hcf2 _ hm2 rfl
    rcases set_cycles_classify_some _ _ _ _ _ _ _ _ _ hcl with
      ⟨_, _, _, hd, ht⟩ | ⟨_, _, _, _, hd, ht⟩ | ⟨_, _, _, hr, _⟩
    · refine ⟨fun hinv => by rw [hp1, hq1, hd]; exact hinv, ?_⟩
      intro p m top hm
      have := hmem p m top hm
      rw [ht] at this; simp at this
    · refine ⟨fun hinv => by rw [hp1, hq1, hd]; exact hinv, ?_⟩
      intro p m top hm
      have := hmem p m top hm
      rw [ht] at this; simp at this
    · obtain ⟨hper, hcase⟩ := pwm_period_check_and_set_true _ _ _ _ _ _ hr
      rcases hcase with ⟨hPe, hpre, ht⟩ | ⟨hb1, hb2, ht⟩
      · refine ⟨fun hinv => ?_, ?_⟩
        · rw [hp1, hq1, hper, hpre, hPe]; exact hinv
        · intro p m top hm
          have := hmem p m top hm
          rw [ht] at this; simp at this
      · refine ⟨fun _ => ?_, ?_⟩
        · rw [hp1, hq1, hper]; exact ⟨hb1, hb2⟩
        · intro p m top hm
          have := hmem p m top hm
          rw [ht] at this
          simp only [List.mem_singleton, HwAction.nrf_pwm_configure.injEq] at this
          obtain ⟨e1, _, e3⟩ := this
          rw [e1, e3]
          exact ⟨hb1, hb2⟩
  · obtain ⟨hd, ht⟩ := set_cycles_error_unchanged fuel hw config data channel _ _ flags o h hret
    rw [hd, ht]
    exact ⟨fun hinv => hinv, fun p m top hm => by simp at hm⟩

/-- One driver call keeps the timing base in range and passes only in-range
values to `nrf_pwm_configure`. -/
theorem driver_step_timing_base (config : pwm_nrfx_config) (d d1 : pwm_nrfx_data)
    (t : List HwAction) (hs : driver_step config d d1 t) :
    ((d.prescaler ≤ PWM_PRESCALER_PRESCALER_Msk
        ∧ d.period_cycles >>> d.prescaler ≤ PWM_COUNTERTOP_COUNTERTOP_Msk) →
      d1.prescaler ≤ PWM_PRESCALER_PRESCALER_Msk
        ∧ d1.period_cycles >>> d1.prescaler ≤ PWM_COUNTERTOP_COUNTERTOP_Msk)
    ∧ (∀ p m top, nrf_pwm_configure p m top ∈ t →
        p ≤ PWM_PRESCALER_PRESCALER_Msk ∧ top ≤ PWM_COUNTERTOP_COUNTERTOP_Msk) := by
  cases hs with
  | init hw =>
    obtain ⟨hdat, hcf⟩ := pwm_nrfx_init_data hw config d
    constructor
    · intro hinv
      rcases hdat with e | ⟨v, e⟩
      · rw [e]; exact hinv
      · rw [e]; exact hinv
    · intro p m top hm
      rw [List.countP_eq_zero] at hcf
      exact absurd rfl (hcf _ hm)
  | set_cycles fuel hw _ channel P D flags o h =>
    exact set_cycles_timing_base fuel hw config d channel P D flags o h
  | uninit =>
    constructor
    · intro _
      exact ⟨Nat.zero_le _, show (0 >>> 0 : Nat) ≤ PWM_COUNTERTOP_COUNTERTOP_Msk by decide⟩
    · intro p m top hm
      simp [pwm_nrfx_uninit] at hm

/-- The timing base of every reachable driver data is in range. -/
theorem reachable_timing_base (config : pwm_nrfx_config) (d : pwm_nrfx_data)
    (hr : reachable config d) :
    d.prescaler ≤ PWM_PRESCALER_PRESCALER_Msk
      ∧ d.period_cycles >>> d.prescaler ≤ PWM_COUNTERTOP_COUNTERTOP_Msk := by
  induction hr with
  | start v =>
    exact ⟨Nat.zero_le _, show (0 >>> 0 : Nat) ≤ PWM_COUNTERTOP_COUNTERTOP_Msk by decide⟩
  | step d d1 t _ hs ih => exact (driver_step_timing_base config d d1 t hs).1 ih

/-- The state left by init on the scenario board is reachable. -/
theorem reachable_after_init : reachable config_up data_after_init :=
  reachable.step pwm_nrfx_data_zero data_after_init _ (reachable.start 0)
    (driver_step.init hw_idle_low pwm_nrfx_data_zero)

/-- The state after the first PWM request of the scenarios is reachable. -/
theorem reachable_first_pwm : reachable config_up data_first_pwm :=
  reachable.step data_after_init result_first_pwm.data result_first_pwm.trace
    reachable_after_init
    (driver_step.set_cycles 0 hw_idle_low data_after_init 0 1000 500 0 result_first_pwm rfl)

/-- The state with a stop pending of the scenarios is reachable. -/
theorem reachable_pulse_zero : reachable config_up result_pulse_zero.data :=
  reachable.step data_first_pwm result_pulse_zero.data result_pulse_zero.trace
    reachable_first_pwm
    (driver_step.set_cycles 0 hw_idle_low data_first_pwm 0 1000 0 0 result_pulse_zero rfl)

/-- C17: in every driver data reachable from the static data by any sequence
of `pwm_nrfx_init`, `pwm_nrfx_set_cycles` and `pwm_nrfx_uninit` calls,
`prescaler <= PWM_PRESCALER_PRESCALER_Msk` and
`period_cycles >> prescaler <= 0x7FFF`, and every countertop a further driver
call passes to `nrf_pwm_configure` is at most `0x7FFF`, the always-active
sentinel compare value `PWM_NRFX_CH_COMPARE_MASK`. -/
theorem C17_timing_base_invariant (config : pwm_nrfx_config) (d : pwm_nrfx_data)
    (hr : reachable config d) :
    d.prescaler ≤ PWM_PRESCALER_PRESCALER_Msk
    ∧ d.period_cycles >>> d.prescaler ≤ 0x7FFF
    ∧ (∀ d1 t, driver_step config d d1 t → ∀ p m top, nrf_pwm_configure p m top ∈ t →
        top ≤ 0x7FFF ∧ top ≤ PWM_NRFX_CH_COMPARE_MASK) := by
  obtain ⟨h1, h2⟩ := reachable_timing_base config d hr
  refine ⟨h1, h2, ?_⟩
  intro d1 t hs p m top hm
  have := ((driver_step_timing_base config d d1 t hs).2 p m top hm).2
  exact ⟨this, this⟩

/-- C17, at a concrete input: the state after init and the first PWM request
(period 1000, prescaler 0) is reachable and in range. -/
theorem C17_timing_base_invariant_witness :
    reachable config_up data_first_pwm
    ∧ (data_first_pwm.prescaler ≤ PWM_PRESCALER_PRESCALER_Msk
      ∧ data_first_pwm.period_cycles >>> data_first_pwm.prescaler ≤ 0x7FFF
      ∧ (∀ d1 t, driver_step config_up data_first_pwm d1 t →
          ∀ p m top, nrf_pwm_configure p m top ∈ t →
          top ≤ 0x7FFF ∧ top ≤ PWM_NRFX_CH_COMPARE_MASK)) :=
  ⟨reachable_first_pwm, C17_timing_base_invariant config_up data_first_pwm reachable_first_pwm⟩

/-- C18: in every reachable driver data, for every call that returns 0 on a
genuine PWM request (`0 < pulse < period` after the center-aligned halving),
with the prescaler in force after the resolver ran:
`pulse >> prescaler <= period >> prescaler <= 0x7FFF`, the committed period is
the requested one, and the cast of `pulse >> prescaler` to `uint16_t` does not
change it. -/
theorem C18_compare_value_fits (config : pwm_nrfx_config) (data : pwm_nrfx_data)
    (hr : reachable config data)
    (fuel : Nat) (hw : nrf_hw) (channel period_cycles pulse_cycles flags : Nat)
    (o : set_cycles_result)
    (h : pwm_nrfx_set_cycles fuel hw config data channel period_cycles pulse_cycles flags
      = some o)
    (hret : o.ret = 0)
    (h0 : 0 < center_aligned_adjust config pulse_cycles)
    (hlt : center_aligned_adjust config pulse_cycles
      < center_aligned_adjust config period_cycles) :
    center_aligned_adjust config pulse_cycles >>> o.data.prescaler
        ≤ center_aligned_adjust config period_cycles >>> o.data.prescaler
    ∧ center_aligned_adjust config period_cycles >>> o.data.prescaler ≤ 0x7FFF
    ∧ o.data.period_cycles = center_aligned_adjust config period_cycles
    ∧ (center_aligned_adjust config pulse_cycles >>> o.data.prescaler) % 65536
        = center_aligned_adjust config pulse_cycles >>> o.data.prescaler := by
  obtain ⟨_, hinv⟩ := reachable_timing_base config data hr
  obtain ⟨hc, cv, np, d1, t1, hcl, hp, hq, _, _⟩ :=
    set_cycles_success_data fuel hw config data channel _ _ flags o h hret
  have hmono : center_aligned_adjust config pulse_cycles >>> o.data.prescaler
      ≤ center_aligned_adjust config period_cycles >>> o.data.prescaler := by
    rw [Nat.shiftRight_eq_div_pow, Nat.shiftRight_eq_div_pow]
    exact Nat.div_le_div_right (Nat.le_of_lt hlt)
  have hfit : center_aligned_adjust config period_cycles >>> o.data.prescaler ≤ 0x7FFF := by
    rcases set_cycles_classify_some _ _ _ _ _ _ _ _ _ hcl with
      ⟨hz, _⟩ | ⟨_, hge, _⟩ | ⟨_, _, _, hres, _⟩
    · omega
    · omega
    · obtain ⟨_, hcase⟩ := pwm_period_check_and_set_true _ _ _ _ _ _ hres
      rcases hcase with ⟨hPe, hpre, _⟩ | ⟨_, hb2, _⟩
      · rw [hq, hpre, hPe]; exact hinv
      · rw [hq]; exact hb2
  have hper : o.data.period_cycles = center_aligned_adjust config period_cycles := by
    rcases set_cycles_classify_some _ _ _ _ _ _ _ _ _ hcl with
      ⟨hz, _⟩ | ⟨_, hge, _⟩ | ⟨_, _, _, hres, _⟩
    · omega
    · omega
    · rw [hp]
      exact (pwm_period_check_and_set_true _ _ _ _ _ _ hres).1
  refine ⟨hmono, hfit, hper, ?_⟩
  apply Nat.mod_eq_of_lt
  omega

/-- C18, at a concrete input: the inverted request "period 1000, pulse 500" on
the reachable state left by init gives prescaler 0 and `500 <= 1000 <=
0x7FFF`. -/
theorem C18_compare_value_fits_witness :
    (reachable config_up data_after_init
      ∧ pwm_nrfx_set_cycles 0 hw_idle_low config_up data_after_init 0 1000 500 1
          = some result_inverted_pwm
      ∧ result_inverted_pwm.ret = 0
      ∧ 0 < center_aligned_adjust config_up 500
      ∧ center_aligned_adjust config_up 500 < center_aligned_adjust config_up 1000)
    ∧ (center_aligned_adjust config_up 500 >>> result_inverted_pwm.data.prescaler
          ≤ center_aligned_adjust config_up 1000 >>> result_inverted_pwm.data.prescaler
      ∧ center_aligned_adjust config_up 1000 >>> result_inverted_pwm.data.prescaler ≤ 0x7FFF
      ∧ result_inverted_pwm.data.period_cycles = center_aligned_adjust config_up 1000
      ∧ (center_aligned_adjust config_up 500 >>> result_inverted_pwm.data.prescaler) % 65536
          = center_aligned_adjust config_up 500 >>> result_inverted_pwm.data.prescaler) :=
  ⟨⟨reachable_after_init, rfl, by decide, by decide, by decide⟩,
    C18_compare_value_fits config_up data_after_init reachable_after_init 0 hw_idle_low
      0 1000 500 1 result_inverted_pwm rfl (by decide) (by decide) (by decide)⟩

/-- Whether a channel needs the peripheral depends on the channel words
only. -/
theorem channel_needs_pwm_congr (i : Fin NRF_PWM_CHANNEL_COUNT) (d d1 : pwm_nrfx_data)
    (h : d1.seq_values = d.seq_values) :
    channel_needs_pwm i d1 = channel_needs_pwm i d := by
  rw [channel_needs_pwm_eq, channel_needs_pwm_eq, h]

/-- After a call of `pwm_nrfx_set_cycles` that leaves `stop_requested` set
because it requested the stop, or that changed nothing, no channel needs the
peripheral. -/
theorem set_cycles_stop_pending (fuel : Nat) (hw : nrf_hw) (config : pwm_nrfx_config)
    (data : pwm_nrfx_data) (channel P D flags : Nat) (o : set_cycles_result)
    (h : pwm_nrfx_set_cycles fuel hw config data channel P D flags = some o)
    (hinv : data.stop_requested = true →
      ∀ i : Fin NRF_PWM_CHANNEL_COUNT, channel_needs_pwm i data = false)
    (hst : o.data.stop_requested = true) :
    ∀ i : Fin NRF_PWM_CHANNEL_COUNT, channel_needs_pwm i o.data = false := by
  by_cases hret : o.ret = 0
  · obtain ⟨hc, cv, np, d1, t1, t2, hcl, hpb, _⟩ :=
      set_cycles_success_steps fuel hw config data channel _ _ flags o h hret
    obtain ⟨_, _, hsr⟩ := set_cycles_classify_fields _ _ _ _ _ _ _ _ _ hcl
    obtain ⟨_, _, hseq, _⟩ := set_cycles_playback_fields _ _ _ _ _ _ _ hpb
    rcases set_cycles_playback_some _ _ _ _ _ _ _ hpb with
      ⟨hn, hoth, _, _⟩ | ⟨_, _, hd2, _⟩ | ⟨_, hsf, hd2, _⟩
    · intro i
      rw [channel_needs_pwm_congr i _ _ hseq]
      by_cases hi : i.val = channel
      · have hie : i = ⟨channel, hc⟩ := Fin.ext hi
        have hcv : cv = 0 ∨ cv = PWM_NRFX_CH_COMPARE_MASK := by
          rcases set_cycles_classify_some _ _ _ _ _ _ _ _ _ hcl with
            ⟨_, e, _⟩ | ⟨_, _, e, _⟩ | ⟨_, _, e, _⟩
          · exact Or.inl e
          · exact Or.inr e
          · rw [hn] at e; exact absurd e (by decide)
        rw [channel_needs_pwm_eq, hie]
        have hw1 : (seq_store d1 ⟨channel, hc⟩
            (PWM_NRFX_CH_VALUE cv ((flags &&& PWM_POLARITY_INVERTED) != 0) % 65536)).seq_values
              ⟨channel, hc⟩
            = PWM_NRFX_CH_VALUE cv ((flags &&& PWM_POLARITY_INVERTED) != 0) % 65536 := by
          simp [seq_store]
        rw [hw1]
        rcases constant_word_not_driven cv ((flags &&& PWM_POLARITY_INVERTED) != 0) hcv
          with e | e
        · rw [e]; rfl
        · rw [e]; simp
      · exact (any_other_channel_needs_pwm_false_iff channel _).mp hoth i hi
    · rw [hd2] at hst
      exact absurd hst (by simp)
    · rw [hd2] at hst
      rw [hst] at hsf
      exact absurd hsf (by decide)
  · have hd := (set_cycles_error_unchanged fuel hw config data channel _ _ flags o h hret).1
    rw [hd] at hst ⊢
    exact hinv hst

/-- One driver call keeps the property "a pending stop means that no channel
needs the peripheral". -/
theorem driver_step_stop_pending (config : pwm_nrfx_config) (d d1 : pwm_nrfx_data)
    (t : List HwAction) (hs : driver_step config d d1 t)
    (hinv : d.stop_requested = true →
      ∀ i : Fin NRF_PWM_CHANNEL_COUNT, channel_needs_pwm i d = false) :
    d1.stop_requested = true →
      ∀ i : Fin NRF_PWM_CHANNEL_COUNT, channel_needs_pwm i d1 = false := by
  cases hs with
  | init hw =>
    intro hst i
    rcases (pwm_nrfx_init_data hw config d).1 with e | ⟨v, e⟩
    · rw [e] at hst ⊢
      exact hinv hst i
    · rw [e]
      exact init_seq_values_not_driven d v i
  | set_cycles fuel hw _ channel P D flags o h =>
    intro hst
    exact set_cycles_stop_pending fuel hw config d channel P D flags o h hinv hst
  | uninit =>
    intro hst
    exact absurd hst (by simp [pwm_nrfx_uninit, pwm_nrfx_data_zero])

/-- C19: in every driver data reachable from the static data by any sequence
of `pwm_nrfx_init`, `pwm_nrfx_set_cycles` and `pwm_nrfx_uninit` calls, if
`stop_requested` is true then no channel satisfies `channel_needs_pwm`. -/
theorem C19_stop_pending_invariant (config : pwm_nrfx_config) (d : pwm_nrfx_data)
    (hr : reachable config d) (hst : d.stop_requested = true) :
    ∀ i : Fin NRF_PWM_CHANNEL_COUNT, channel_needs_pwm i d = false := by
  induction hr with
  | start v => exact absurd hst (by simp [pwm_nrfx_data_zero])
  | step d d1 t _ hs ih => exact driver_step_stop_pending config d d1 t hs ih hst

/-- C19, at a concrete input: after init, a PWM request and then pulse 0 on
channel 0 a stop is pending, and no channel needs the peripheral. -/
theorem C19_stop_pending_invariant_witness :
    (reachable config_up result_pulse_zero.data
      ∧ result_pulse_zero.data.stop_requested = true)
    ∧ ∀ i : Fin NRF_PWM_CHANNEL_COUNT, channel_needs_pwm i result_pulse_zero.data = false :=
  ⟨⟨reachable_pulse_zero, by decide⟩,
    C19_stop_pending_invariant config_up result_pulse_zero.data reachable_pulse_zero
      (by decide)⟩

end PwmNrfx
